import Mathlib

/-!
Verification development for the core of the sawtooth-pbft consensus engine
(files src/node.rs and src/engine.rs), as a shallow embedding in Lean 4.

Conventions of the embedding:
* Byte strings that are only compared for equality (block ids, peer ids,
  summaries) are modelled as natural numbers.
* The validator service is modelled by an environment record answering
  queries (on-chain peer settings, block summarization, finalization), and
  every outgoing service call is recorded as an explicit effect.
* Rust panics (vector indexing out of bounds, the fault-tolerance abort in
  update_membership, unwrap on the wrong message-wrapper variant) are
  modelled by the terminal status value in each handler result.
* The source tree only contains node.rs and engine.rs.  The state object
  (state.rs), the message log (message_log.rs), the parsed-message wrapper
  (message_type.rs) and the protobuf codec are modelled from the
  specification; each such definition carries a doc comment saying so.
* broadcast is modelled as an emitted effect without the in-process
  self-delivery, exactly as in the cfg(test) variant of _broadcast_message
  in node.rs; self-delivered messages are covered by the adversarially
  quantified peer-message events of the execution model.
-/

namespace Pbft

/-- Peer identity, an opaque byte string in the source, modelled as a Nat. -/
abbrev PeerId := Nat

/-- Block identity, an opaque byte string in the source, modelled as a Nat. -/
abbrev BlockId := Nat

/-- Modelled from the spec: message_type.rs is not under src/.  Wire message
types named by the spec (section 6), plus a catch-all for unknown strings. -/
inductive PbftMessageType where
  | blockNew
  | prePrepare
  | prepare
  | commit
  | viewChange
  | newView
  | unset
deriving DecidableEq

/-- Modelled from the spec: the multicast (normal-case, phase-bound) message
types are PrePrepare, Prepare and Commit (spec section 4.2). -/
def PbftMessageType.is_multicast : PbftMessageType → Bool
  | .prePrepare => true
  | .prepare => true
  | .commit => true
  | _ => false

/-- The reduced block projection carried inside PBFT messages (spec section 3);
protos are not under src/, fields as listed by the spec. -/
structure PbftBlock where
  block_id : BlockId
  previous_id : BlockId
  signer_id : PeerId
  block_num : Nat
  summary : Nat
deriving DecidableEq

/-- The default PbftBlock, as protobuf default values (all fields zero). -/
def defaultPbftBlock : PbftBlock := ⟨0, 0, 0, 0, 0⟩

/-- Message metadata: the key over which log predicates are computed. -/
structure PbftMessageInfo where
  msg_type : PbftMessageType
  view : Nat
  seq_num : Nat
  signer_id : PeerId
deriving DecidableEq

/-- A normal PBFT message: metadata plus block. -/
structure PbftMessage where
  info : PbftMessageInfo
  block : PbftBlock
deriving DecidableEq

/-- A signed vote.  The source stores raw header/message bytes plus a
signature; the model keeps the decoded content and the outcomes of the
cryptographic checks that the source delegates to secp256k1 and SHA-512:
`message` is the decode of message_bytes (none on a decode failure),
`header_signer` is the signer_id of the decoded header (none when
header_bytes does not decode), `sig_ok` is the outcome of the secp256k1
signature verification of the header, and `hash_ok` the outcome of
verify_sha512 of the message bytes against the header's content digest. -/
structure PbftSignedVote where
  message : Option PbftMessage
  header_signer : Option PeerId
  sig_ok : Bool
  hash_ok : Bool
deriving DecidableEq

/-- A NewView message: metadata plus the carried ViewChange votes. -/
structure PbftNewView where
  info : PbftMessageInfo
  view_changes : List PbftSignedVote
deriving DecidableEq

/-- A consensus seal proving finality of the previous block. -/
structure PbftSeal where
  summary : Nat
  previous_id : BlockId
  previous_commit_votes : List PbftSignedVote
deriving DecidableEq

/-- A block payload as far as the core inspects it: empty bytes, bytes that
fail to decode as a PbftSeal, or bytes decoding to a seal.  Empty bytes
decode successfully to the all-default protobuf message, which the model
reflects in `SealPayload.parse`. -/
inductive SealPayload where
  | empty
  | invalid
  | valid (s : PbftSeal)
deriving DecidableEq

/-- Protobuf decode of a payload into a seal: empty bytes give the default
seal (no votes), invalid bytes fail, valid bytes give the carried seal. -/
def SealPayload.parse : SealPayload → Option PbftSeal
  | .empty => some ⟨0, 0, []⟩
  | .invalid => none
  | .valid s => some s

/-- Whether the payload byte string is empty. -/
def SealPayload.is_empty : SealPayload → Bool
  | .empty => true
  | _ => false

/-- A validator block as consumed by the core (spec section 3). -/
structure Block where
  block_id : BlockId
  previous_id : BlockId
  signer_id : PeerId
  block_num : Nat
  payload : SealPayload
  summary : Nat
deriving DecidableEq

/-- PbftBlock::from(Block): the projection dropping the payload. -/
def PbftBlock.fromBlock (b : Block) : PbftBlock :=
  ⟨b.block_id, b.previous_id, b.signer_id, b.block_num, b.summary⟩

/-- Modelled from the spec: message_type.rs is not under src/.  The decoded
content of a parsed message: either a normal PbftMessage or a PbftNewView. -/
inductive PbftMessageWrapper where
  | message (m : PbftMessage)
  | newView (nv : PbftNewView)
deriving DecidableEq

/-- Modelled from the spec: message_type.rs is not under src/.  The in-memory
wrapper around a decoded message.  The raw header/signature/message bytes kept
by the source for re-packaging votes are modelled by the same three decoded
components used in PbftSignedVote (`vote_header_signer`, `vote_sig_ok`,
`vote_hash_ok`). -/
structure ParsedMessage where
  from_self : Bool
  wrapper : PbftMessageWrapper
  vote_header_signer : Option PeerId
  vote_sig_ok : Bool
  vote_hash_ok : Bool
deriving DecidableEq

/-- The metadata of a parsed message, for either wrapper variant. -/
def ParsedMessage.info (pm : ParsedMessage) : PbftMessageInfo :=
  match pm.wrapper with
  | .message m => m.info
  | .newView nv => nv.info

/-- The block of a parsed message; none for the NewView variant (where the
source's get_block would panic). -/
def ParsedMessage.get_block? (pm : ParsedMessage) : Option PbftBlock :=
  match pm.wrapper with
  | .message m => some m.block
  | .newView _ => none

/-- The block of a parsed message with the protobuf default for the NewView
variant; used only inside the (spec-modelled) message-log bookkeeping. -/
def ParsedMessage.get_blockD (pm : ParsedMessage) : PbftBlock :=
  pm.get_block?.getD defaultPbftBlock

/-- Modelled from the spec: ParsedMessage::from_pbft_message builds a
self-constructed message with no real signature material; the decoded header
of the empty header bytes is the protobuf default (signer 0) and both
cryptographic checks fail on empty signature material. -/
def ParsedMessage.from_pbft_message (m : PbftMessage) : ParsedMessage :=
  ⟨true, .message m, some 0, false, false⟩

/-- The error taxonomy of the core (spec section 7), as raised by node.rs. -/
inductive PbftError where
  | serializationError
  | internalError (s : String)
  | notFromPrimary
  | notReadyForMessage
  | noWorkingBlock
  | mismatchedBlocks
  | invalidMessage (s : String)
deriving DecidableEq

/-- How a handler invocation ended: normally, with a PbftError, or by a Rust
panic. -/
inductive Status where
  | ok
  | error (e : PbftError)
  | panicked
deriving DecidableEq

/-- The phases of the replicated state machine. -/
inductive PbftPhase where
  | prePreparing
  | checking
  | preparing
  | committing
  | finished
deriving DecidableEq

/-- Modelled from the spec: the strictly forward phase order of section 4.2,
with Finished wrapping to PrePreparing at height rollover. -/
def PbftPhase.next : PbftPhase → PbftPhase
  | .prePreparing => .checking
  | .checking => .preparing
  | .preparing => .committing
  | .committing => .finished
  | .finished => .prePreparing

/-- The operating mode: normal case or view changing towards a target view. -/
inductive PbftMode where
  | normal
  | viewChanging (v : Nat)
deriving DecidableEq

/-- Modelled from the spec: a one-shot timeout (section 4.7); real time is
outside the model, so only the started/stopped flag and the duration are
kept. -/
structure PbftTimeout where
  running : Bool
  duration : Nat
deriving DecidableEq

/-- Starting a timeout records the start instant (modelled: sets running). -/
def PbftTimeout.start (t : PbftTimeout) : PbftTimeout := { t with running := true }

/-- Stopping a timeout clears it. -/
def PbftTimeout.stop (t : PbftTimeout) : PbftTimeout := { t with running := false }

/-- Modelled from the spec: state.rs is not under src/.  The replicated-state-
machine context of section 3 (storage-path and ticker config omitted: they do
not enter any handler in node.rs). -/
structure PbftState where
  id : PeerId
  peer_ids : List PeerId
  f : Nat
  view : Nat
  seq_num : Nat
  phase : PbftPhase
  mode : PbftMode
  working_block : Option PbftBlock
  forced_view_change_period : Nat
  view_change_duration : Nat
  faulty_primary_timeout : PbftTimeout
  view_change_timeout : PbftTimeout
deriving DecidableEq

/-- Modelled from the spec: primary for view v is peer_ids[v mod peers]. -/
def PbftState.get_primary_id_at_view (st : PbftState) (v : Nat) : PeerId :=
  st.peer_ids.getD (v % st.peer_ids.length) 0

/-- Modelled from the spec: the primary for the current view. -/
def PbftState.get_primary_id (st : PbftState) : PeerId :=
  st.get_primary_id_at_view st.view

/-- Whether this node is the primary for the current view. -/
def PbftState.is_primary (st : PbftState) : Bool :=
  st.id == st.get_primary_id

/-- Whether this node is the primary for view v. -/
def PbftState.is_primary_at_view (st : PbftState) (v : Nat) : Bool :=
  st.id == st.get_primary_id_at_view v

/-- Modelled from the spec: seq_num is at a forced view change boundary iff it
is a multiple of forced_view_change_period (section 4.2, BlockCommit). -/
def PbftState.at_forced_view_change (st : PbftState) : Bool :=
  st.seq_num % st.forced_view_change_period == 0

/-- Modelled from the spec: phase transitions are strictly forward within a
height (section 4.2); switching to any phase other than the successor of the
current phase leaves the phase unchanged. -/
def PbftState.switch_phase (st : PbftState) (desired : PbftPhase) : PbftState :=
  if desired = st.phase.next then { st with phase := desired } else st

/-- Modelled from the spec: reset_to_start clears the mode, sets the phase to
PrePreparing, keeps seq_num, drops the working block and resumes the faulty
primary timeout (section 4.3). -/
def PbftState.reset_to_start (st : PbftState) : PbftState :=
  { st with mode := .normal, phase := .prePreparing, working_block := none,
            faulty_primary_timeout := st.faulty_primary_timeout.start }

/-- Modelled from the spec: expected multicast type per phase, used only to
suppress redundant multicast broadcasts in _broadcast_pbft_message. -/
def PbftState.check_msg_type (st : PbftState) : PbftMessageType :=
  match st.phase with
  | .prePreparing => .prePrepare
  | .checking => .prePrepare
  | .preparing => .prepare
  | .committing => .commit
  | .finished => .unset

/-- Modelled from the spec: message_log.rs is not under src/.  Accepted
messages plus the backlog of deferred peer messages (section 4.5). -/
structure PbftLog where
  messages : List ParsedMessage
  backlog : List ParsedMessage
  max_log_size : Nat
deriving DecidableEq

/-- Modelled from the spec: the view-bound message types whose view must equal
the node's current view to be logged (section 4.5). -/
def PbftMessageType.view_bound : PbftMessageType → Bool
  | .prePrepare => true
  | .prepare => true
  | .commit => true
  | _ => false

/-- Modelled from the spec: the deduplication key of the log, the tuple
(signer_id, type, view, seq_num, block_id) (section 4.5). -/
def ParsedMessage.log_key (pm : ParsedMessage) :
    PeerId × PbftMessageType × Nat × Nat × BlockId :=
  (pm.info.signer_id, pm.info.msg_type, pm.info.view, pm.info.seq_num,
   pm.get_blockD.block_id)

/-- Modelled from the spec: add_message deduplicates on the log key and drops
view-bound messages whose view differs from the node's current view; dropped
messages leave the log unchanged (sections 4.5 and 9). -/
def PbftLog.add_message (log : PbftLog) (pm : ParsedMessage) (st : PbftState) :
    PbftLog :=
  if pm.info.msg_type.view_bound && pm.info.view != st.view then log
  else if log.messages.any (fun m => m.log_key == pm.log_key) then log
  else { log with messages := log.messages ++ [pm] }

/-- Modelled from the spec: messages of a given type and sequence number. -/
def PbftLog.get_messages_of_type_seq (log : PbftLog) (t : PbftMessageType)
    (seq : Nat) : List ParsedMessage :=
  log.messages.filter (fun m => m.info.msg_type == t && m.info.seq_num == seq)

/-- Modelled from the spec: messages of a given type, sequence number and
view. -/
def PbftLog.get_messages_of_type_seq_view (log : PbftLog) (t : PbftMessageType)
    (seq : Nat) (v : Nat) : List ParsedMessage :=
  log.messages.filter (fun m =>
    m.info.msg_type == t && m.info.seq_num == seq && m.info.view == v)

/-- Modelled from the spec: messages of a given type and view. -/
def PbftLog.get_messages_of_type_view (log : PbftLog) (t : PbftMessageType)
    (v : Nat) : List ParsedMessage :=
  log.messages.filter (fun m => m.info.msg_type == t && m.info.view == v)

/-- Modelled from the spec: the single logged message of the given type whose
view and sequence number match the reference metadata (section 4.5). -/
def PbftLog.get_one_msg (log : PbftLog) (info : PbftMessageInfo)
    (t : PbftMessageType) : Option ParsedMessage :=
  (log.get_messages_of_type_seq_view t info.seq_num info.view).head?

/-- Modelled from the spec: true iff at least n distinct signers have logged a
message of the given type whose view and seq_num equal the reference's and,
when match_block is set, whose block equals the reference's block. -/
def PbftLog.log_has_required_msgs (log : PbftLog) (t : PbftMessageType)
    (ref : ParsedMessage) (match_block : Bool) (n : Nat) : Bool :=
  let ms := log.messages.filter (fun m =>
    m.info.msg_type == t && m.info.view == ref.info.view &&
    m.info.seq_num == ref.info.seq_num &&
    (!match_block || m.get_blockD == ref.get_blockD))
  n ≤ (ms.map (fun m => m.info.signer_id)).dedup.length

/-- Modelled from the spec: get_enough_messages returns n messages of the
given type and sequence number from distinct signers, or nothing (used to
build a seal). -/
def PbftLog.get_enough_messages (log : PbftLog) (t : PbftMessageType)
    (seq : Nat) (n : Nat) : Option (List ParsedMessage) :=
  let ms := log.get_messages_of_type_seq t seq
  let uniq := ms.foldl (fun acc m =>
    if acc.any (fun m2 => m2.info.signer_id == m.info.signer_id) then acc
    else acc ++ [m]) []
  if n ≤ uniq.length then some (uniq.take n) else none

/-- Modelled from the spec: push a deferred message onto the backlog FIFO. -/
def PbftLog.push_backlog (log : PbftLog) (pm : ParsedMessage) : PbftLog :=
  { log with backlog := log.backlog ++ [pm] }

/-- Modelled from the spec: pop the oldest deferred message, if any. -/
def PbftLog.pop_backlog (log : PbftLog) : Option ParsedMessage × PbftLog :=
  match log.backlog with
  | [] => (none, log)
  | pm :: rest => (some pm, { log with backlog := rest })

/-- Modelled from the spec: drop entries whose seq_num plus max_log_size is at
most the given bound (section 4.5). -/
def PbftLog.garbage_collect (log : PbftLog) (below : Nat) : PbftLog :=
  { log with messages := log.messages.filter (fun m =>
      !(m.info.seq_num + log.max_log_size ≤ below)) }

/-- Result of the validator's finalize_block call. -/
inductive FinalizeRes where
  | done (id : BlockId)
  | notReady
  | failed
deriving DecidableEq

/-- The validator environment: answers to the queries the node makes.
settings_peers models get_settings(block, sawtooth.consensus.pbft.peers);
summarize models summarize_block (none = error); finalize models
finalize_block. -/
structure Env where
  settings_peers : BlockId → List PeerId
  summarize : Option Nat
  finalize : FinalizeRes

/-- One outgoing validator-service call made by the node. -/
inductive Effect where
  | initBlock (prev : Option BlockId)
  | checkBlocks (ids : List BlockId)
  | commitBlock (id : BlockId) (height : Nat)
  | failBlock (id : BlockId)
  | broadcastMsg (t : PbftMessageType) (w : PbftMessageWrapper)
  | getSettings (id : BlockId)
  | finalizeBlock
deriving DecidableEq

/-- The commitBlock effect mirrors service.commit_block(block_id); the height
component is specification instrumentation recording the node's seq_num at the
moment of the call, used to state per-height properties. -/
def Effect.isCommit : Effect → Bool
  | .commitBlock _ _ => true
  | _ => false

/-- The result of one handler invocation: final state, final log, the
validator-service calls made (in order), and how the invocation ended. -/
structure NodeRes where
  st : PbftState
  log : PbftLog
  effs : List Effect
  status : Status
deriving DecidableEq

/-- verify_vote from node.rs: decode the message and the header, check the
message type, the header signature and the content digest, apply the caller's
criteria, and return the signer id taken from the decoded message. -/
def verify_vote (vote : PbftSignedVote) (expected : PbftMessageType)
    (criteria : PbftMessage → Except PbftError Unit) : Except PbftError PeerId :=
  match vote.message with
  | none => .error .serializationError
  | some m =>
    match vote.header_signer with
    | none => .error .serializationError
    | some _hsigner =>
      if m.info.msg_type ≠ expected then
        .error (.internalError "unexpected vote type")
      else if !vote.sig_ok then
        .error (.internalError "header failed verification")
      else if !vote.hash_ok then
        .error (.internalError "content digest mismatch")
      else
        match criteria m with
        | .error e => .error e
        | .ok _ => .ok m.info.signer_id

/-- Insertion into the voter-id set, modelling HashSet::insert on a duplicate-
free list. -/
def insertId (ids : List PeerId) (id : PeerId) : List PeerId :=
  if ids.contains id then ids else ids ++ [id]

/-- The try_fold over a vote list in node.rs: verify each vote in order,
stopping at the first failure, and collect the distinct signer ids. -/
def collect_vote_ids (votes : List PbftSignedVote) (expected : PbftMessageType)
    (criteria : PbftMessage → Except PbftError Unit) :
    Except PbftError (List PeerId) :=
  votes.foldlM (fun ids vote => (verify_vote vote expected criteria).map (insertId ids)) []

/-- verify_new_view from node.rs: the sender must be the primary for the
message's view, every carried vote must be a verified ViewChange for that
view, the voters must be a subset of the peers minus the new primary, and
there must be at least 2f of them. -/
def verify_new_view (nv : PbftNewView) (st : PbftState) : Except PbftError Unit :=
  if nv.info.signer_id ≠ st.get_primary_id_at_view nv.info.view then
    .error .notFromPrimary
  else
    match collect_vote_ids nv.view_changes .viewChange (fun m =>
        if m.info.view ≠ nv.info.view then
          .error (.internalError "ViewChange does not match NewView")
        else .ok ()) with
    | .error e => .error e
    | .ok voter_ids =>
      let peer_ids := st.peer_ids.filter (fun pid => pid != nv.info.signer_id)
      if !(voter_ids.all (fun id => peer_ids.contains id)) then
        .error (.internalError "unexpected vote ids")
      else if voter_ids.length < 2 * st.f then
        .error (.internalError "not enough votes")
      else .ok ()

/-- Equality of Except values is decidable when both components' are. -/
instance {e a : Type} [DecidableEq e] [DecidableEq a] : DecidableEq (Except e a) :=
  fun x y =>
    match x, y with
    | .ok u, .ok v =>
      if h : u = v then isTrue (by rw [h]) else isFalse (by simp [h])
    | .error u, .error v =>
      if h : u = v then isTrue (by rw [h]) else isFalse (by simp [h])
    | .ok _, .error _ => isFalse (by simp)
    | .error _, .ok _ => isFalse (by simp)

/-- The per-vote criteria that verify_consensus_seal passes to verify_vote:
the vote's Commit must be for the seal's previous block id. -/
def seal_vote_criteria (sl : PbftSeal) : PbftMessage → Except PbftError Unit :=
  fun m =>
    if m.block.block_id ≠ sl.previous_id then
      .error (.internalError "vote block id does not match seal")
    else .ok ()

/-- The final voter-set checks of verify_consensus_seal from node.rs: the
distinct verified voters must all belong to the on-chain peers of the
previous block (read through get_settings) minus the block signer, and there
must be at least 2f of them (the publisher's vote is implicit). -/
def seal_voters_check (env : Env) (block : Block) (st : PbftState)
    (voter_ids : List PeerId) : Except PbftError Unit × List Effect :=
  let peers := env.settings_peers block.previous_id
  let peer_ids := peers.filter (fun pid => pid != block.signer_id)
  if !(voter_ids.all (fun id => peer_ids.contains id)) then
    (.error (.internalError "unexpected vote ids"), [.getSettings block.previous_id])
  else if voter_ids.length < 2 * st.f then
    (.error (.internalError "not enough votes"), [.getSettings block.previous_id])
  else (.ok (), [.getSettings block.previous_id])

/-- verify_consensus_seal from node.rs.  Blocks below height 2 are accepted
without looking at the payload.  Otherwise: non-empty payload, seal decodes,
seal previous id and summary match the block, every vote is a verified Commit
for the seal's previous id, and the distinct voters are at least 2f members of
the previous block's on-chain peers minus the block signer.  Returns the
verification outcome together with the service calls made (get_settings is
queried once the votes verify). -/
def verify_consensus_seal (env : Env) (block : Block) (st : PbftState) :
    Except PbftError Unit × List Effect :=
  if block.block_num < 2 then (.ok (), [])
  else if block.payload.is_empty then
    (.error (.internalError "empty payload for non-genesis block"), [])
  else
    match block.payload.parse with
    | none => (.error .serializationError, [])
    | some sl =>
      if sl.previous_id ≠ block.previous_id then
        (.error (.internalError "seal previous id does not match block"), [])
      else if sl.summary ≠ block.summary then
        (.error (.internalError "seal summary does not match block"), [])
      else
        match collect_vote_ids sl.previous_commit_votes .commit (seal_vote_criteria sl) with
        | .error e => (.error e, [])
        | .ok voter_ids => seal_voters_check env block st voter_ids

/-- signed_votes_from_messages from node.rs: repackage logged messages as
signed votes, carrying over their raw header and signature material. -/
def signed_votes_from_messages (msgs : List ParsedMessage) : List PbftSignedVote :=
  msgs.map (fun m =>
    { message := match m.wrapper with
        | .message pm => some pm
        | .newView _ => none
      header_signer := m.vote_header_signer
      sig_ok := m.vote_sig_ok
      hash_ok := m.vote_hash_ok })

/-- build_seal from node.rs: collect 2f Commit messages for the previous
height and bundle them.  A none result models the messages[0] panic that the
source hits when 2f is 0 and the vote list is empty. -/
def build_seal (st : PbftState) (log : PbftLog) (summary : Nat) :
    Option (Except PbftError PbftSeal) :=
  match log.get_enough_messages .commit (st.seq_num - 1) (2 * st.f) with
  | none => some (.error (.internalError "not enough commit messages for seal"))
  | some messages =>
    match messages.head? with
    | none => none
    | some m0 =>
      match m0.get_block? with
      | none => none
      | some b0 =>
        some (.ok ⟨summary, b0.block_id, signed_votes_from_messages messages⟩)

/-- _broadcast_pbft_message from node.rs: suppress multicast messages whose
type is not the one expected for the current phase, otherwise emit the
broadcast.  The in-process self-delivery is modelled by explicit events, as in
the cfg(test) variant of _broadcast_message. -/
def broadcast_pbft_message (seq : Nat) (t : PbftMessageType) (block : PbftBlock)
    (st : PbftState) : List Effect :=
  if t.is_multicast && t != st.check_msg_type then []
  else [.broadcastMsg t (.message ⟨⟨t, st.view, seq, st.id⟩, block⟩)]

/-- propose_view_change from node.rs: a no-op when already pursuing this or a
later view; otherwise set the mode, re-arm the view change timeout with the
linear back-off duration, and broadcast a ViewChange for the target view at
seq_num - 1.  (The u32 overflow abort of the source's checked_mul cannot occur
over Nat durations.) -/
def propose_view_change (st : PbftState) (log : PbftLog) (view : Nat) : NodeRes :=
  if (match st.mode with | .viewChanging v => decide (view ≤ v) | _ => false) then
    ⟨st, log, [], .ok⟩
  else
    let vc_timeout : PbftTimeout := ⟨true, st.view_change_duration * (view - st.view)⟩
    let st := { st with mode := .viewChanging view, view_change_timeout := vc_timeout }
    let vc_msg : PbftMessage := ⟨⟨.viewChange, view, st.seq_num - 1, st.id⟩, defaultPbftBlock⟩
    ⟨st, log, [.broadcastMsg .viewChange (.message vc_msg)], .ok⟩

/-- handle_pre_prepare from node.rs: ignore messages not from the current
primary; backlog the message when no matching BlockNew is logged; on a
conflicting PrePrepare for the same view and sequence number fail all
conflicting blocks and start a view change; otherwise log the message and,
when it is for the current sequence number in phase PrePreparing, move to
Checking, stop the faulty primary timeout and ask the validator to check the
block. -/
def handle_pre_prepare (msg : ParsedMessage) (st : PbftState) (log : PbftLog) :
    NodeRes :=
  if msg.info.signer_id ≠ st.get_primary_id then ⟨st, log, [], .ok⟩
  else
    match msg.get_block? with
    | none => ⟨st, log, [], .panicked⟩
    | some mblock =>
      let block_new_exists := (log.get_messages_of_type_seq .blockNew
        msg.info.seq_num).any (fun bn => bn.get_blockD == mblock)
      if !block_new_exists then ⟨st, log.push_backlog msg, [], .ok⟩
      else
        let mismatched_blocks := (log.get_messages_of_type_seq_view .prePrepare
          msg.info.seq_num msg.info.view).filterMap (fun em =>
            if em.get_blockD ≠ mblock then some em.get_blockD else none)
        if mismatched_blocks ≠ [] then
          let all_blocks := mismatched_blocks ++ [mblock]
          let effs := all_blocks.map (fun b => Effect.failBlock b.block_id)
          let r := propose_view_change st log (st.view + 1)
          ⟨r.st, r.log, effs ++ r.effs, r.status⟩
        else
          let log := log.add_message msg st
          if msg.info.seq_num == st.seq_num && st.phase == .prePreparing then
            let st := st.switch_phase .checking
            let st := { st with faulty_primary_timeout := st.faulty_primary_timeout.stop }
            ⟨st, log, [.checkBlocks [mblock.block_id]], .ok⟩
          else ⟨st, log, [], .ok⟩

/-- handle_prepare from node.rs: log the message; when it is for the current
sequence number in phase Preparing and the log holds the matching PrePrepare
plus 2f+1 matching Prepares from distinct signers, move to Committing and
broadcast a Commit. -/
def handle_prepare (msg : ParsedMessage) (st : PbftState) (log : PbftLog) :
    NodeRes :=
  match msg.get_block? with
  | none => ⟨st, log, [], .panicked⟩
  | some block =>
    let info := msg.info
    let log := log.add_message msg st
    if info.seq_num == st.seq_num && st.phase == .preparing then
      match log.get_one_msg info .prePrepare with
      | some pre_prep =>
        if log.log_has_required_msgs .prepare pre_prep true (2 * st.f + 1) then
          let st := st.switch_phase .committing
          ⟨st, log, broadcast_pbft_message st.seq_num .commit block st, .ok⟩
        else ⟨st, log, [], .ok⟩
      | none => ⟨st, log, [], .ok⟩
    else ⟨st, log, [], .ok⟩

/-- handle_commit from node.rs: log the message; when it is for the current
sequence number in phase Committing and the log holds the matching PrePrepare
plus 2f+1 matching Commits from distinct signers, ask the validator to commit
the block and move to Finished. -/
def handle_commit (msg : ParsedMessage) (st : PbftState) (log : PbftLog) :
    NodeRes :=
  match msg.get_block? with
  | none => ⟨st, log, [], .panicked⟩
  | some block =>
    let info := msg.info
    let log := log.add_message msg st
    if info.seq_num == st.seq_num && st.phase == .committing then
      match log.get_one_msg info .prePrepare with
      | some pre_prep =>
        if log.log_has_required_msgs .commit pre_prep true (2 * st.f + 1) then
          let effs := [Effect.commitBlock block.block_id st.seq_num]
          let st := st.switch_phase .finished
          ⟨st, log, effs, .ok⟩
        else ⟨st, log, [], .ok⟩
      | none => ⟨st, log, [], .ok⟩
    else ⟨st, log, [], .ok⟩

/-- handle_view_change from node.rs: drop outdated messages; log the message;
start view changing early on f+1 ViewChanges for a later view; when this node
is the primary for the message's view and holds 2f ViewChanges from other
nodes, broadcast the NewView. -/
def handle_view_change (msg : ParsedMessage) (st : PbftState) (log : PbftLog) :
    NodeRes :=
  let msg_view := msg.info.view
  if msg_view ≤ st.view ||
      (match st.mode with | .viewChanging v => msg_view < v | _ => false) then
    ⟨st, log, [], .ok⟩
  else
    let log := log.add_message msg st
    let should_propose :=
      (match st.mode with | .viewChanging v => decide (msg_view > v) | .normal => true) &&
      log.log_has_required_msgs .viewChange msg false (st.f + 1)
    let r := if should_propose then propose_view_change st log msg_view
             else ⟨st, log, [], .ok⟩
    let st := r.st
    let log := r.log
    let messages := (log.get_messages_of_type_view .viewChange msg_view).filter
      (fun m => !m.from_self)
    if st.is_primary_at_view msg_view && 2 * st.f ≤ messages.length then
      let nv : PbftNewView := ⟨⟨.newView, msg_view, st.seq_num - 1, st.id⟩,
        signed_votes_from_messages messages⟩
      ⟨st, log, r.effs ++ [.broadcastMsg .newView (.newView nv)], .ok⟩
    else ⟨st, log, r.effs, .ok⟩

/-- The tail of handle_new_view from node.rs that adopts the message's view:
update the view, stop the view change timeout, initialize a block when now
primary with no working block, and reset to the start state.  In the source
this code is reached both on successful verification and, through the missing
return in the Err(e) arm, when verification fails with an error other than
NotFromPrimary while the mode is Normal. -/
def handle_new_view_adopt (nv : PbftNewView) (st : PbftState) (log : PbftLog) :
    NodeRes :=
  let st := { st with view := nv.info.view, view_change_timeout := st.view_change_timeout.stop }
  let effs := if st.is_primary && st.working_block.isNone then
    [Effect.initBlock none] else []
  let st := st.reset_to_start
  ⟨st, log, effs, .ok⟩

/-- handle_new_view from node.rs: verify the NewView; drop it silently when it
is not from the primary for its view; on any other verification failure while
view changing towards v, propose a view change to v+1; otherwise (successful
verification, or failed verification in Normal mode, which falls through in
the source) adopt the message's view. -/
def handle_new_view (msg : ParsedMessage) (st : PbftState) (log : PbftLog) :
    NodeRes :=
  match msg.wrapper with
  | .message _ => ⟨st, log, [], .panicked⟩
  | .newView nv =>
    match verify_new_view nv st with
    | .error .notFromPrimary => ⟨st, log, [], .ok⟩
    | .error _ =>
      match st.mode with
      | .viewChanging v => propose_view_change st log (v + 1)
      | .normal => handle_new_view_adopt nv st log
    | .ok _ => handle_new_view_adopt nv st log

/-- Set equality of peer lists, modelling the HashSet comparison in
update_membership. -/
def sameSet (a b : List PeerId) : Bool :=
  a.all (fun x => b.contains x) && b.all (fun x => a.contains x)

/-- The common tail of on_block_commit from node.rs: garbage-collect the log,
restart the faulty primary timeout, and initialize a block when primary with
no working block. -/
def on_block_commit_tail (block_id : BlockId) (st : PbftState) (log : PbftLog)
    (effs0 : List Effect) : NodeRes :=
  let log := log.garbage_collect st.seq_num
  let st := { st with faulty_primary_timeout := st.faulty_primary_timeout.start }
  let effs1 := if st.is_primary && st.working_block.isNone then
    [Effect.initBlock (some block_id)] else []
  ⟨st, log, effs0 ++ effs1, .ok⟩

/-- on_block_commit from node.rs: ignored unless the phase is Finished and the
block is the working block.  Otherwise move to PrePreparing, advance seq_num,
adopt an already-logged BlockNew for the new height as the working block,
increment the view when at a forced view change boundary or (the || is
short-circuiting, so only checked otherwise) when update_membership reports a
membership change; update_membership reads the on-chain peers at the
committed block, replaces the peer list, and aborts when the recomputed f is
zero.  Then garbage-collect, restart the faulty primary timeout and
initialize a block if primary without a working block. -/
def on_block_commit (env : Env) (block_id : BlockId) (st : PbftState)
    (log : PbftLog) : NodeRes :=
  let is_working_block := match st.working_block with
    | some b => b.block_id == block_id
    | none => false
  if st.phase ≠ .finished || !is_working_block then ⟨st, log, [], .ok⟩
  else
    let st := st.switch_phase .prePreparing
    let st := { st with seq_num := st.seq_num + 1 }
    let next_block_new := (log.get_messages_of_type_seq .blockNew st.seq_num).head?
    let st := { st with working_block := next_block_new.map (fun (m : ParsedMessage) => m.get_blockD) }
    if st.at_forced_view_change then
      let st := { st with view := st.view + 1 }
      on_block_commit_tail block_id st log []
    else
      let peers := env.settings_peers block_id
      if !(sameSet peers st.peer_ids) then
        let st := { st with peer_ids := peers }
        let f := (peers.length - 1) / 3
        if f == 0 then ⟨st, log, [.getSettings block_id], .panicked⟩
        else
          let st := { st with f := f }
          let st := { st with view := st.view + 1 }
          on_block_commit_tail block_id st log [.getSettings block_id]
      else
        on_block_commit_tail block_id st log [.getSettings block_id]

/-- The try_fold in catchup from node.rs: decode each seal vote's message
bytes into a Commit message, stopping at the first decode failure. -/
def parse_seal_messages (votes : List PbftSignedVote) :
    Option (List ParsedMessage) :=
  votes.mapM (fun v => v.message.map ParsedMessage.from_pbft_message)

/-- catchup from node.rs: require a working block whose height and id link to
the given block; decode the seal and its votes; read the view of the first
vote and raise the node's view to it when larger; add all reconstructed
Commit messages to the log; commit the first vote's block, jump to Finished
and immediately run on_block_commit.  Indexing messages[0] on an empty vote
list is the source's panic. -/
def catchup (env : Env) (block : Block) (st : PbftState) (log : PbftLog) :
    NodeRes :=
  match st.working_block with
  | none => ⟨st, log, [], .error .noWorkingBlock⟩
  | some working_block =>
    let block_num_matches := block.block_num == working_block.block_num + 1
    let block_id_matches := block.previous_id == working_block.block_id
    if !block_num_matches || !block_id_matches then
      ⟨st, log, [], .error .mismatchedBlocks⟩
    else
      match block.payload.parse with
      | none => ⟨st, log, [], .error .serializationError⟩
      | some sl =>
        match parse_seal_messages sl.previous_commit_votes with
        | none => ⟨st, log, [], .error .serializationError⟩
        | some messages =>
          match messages.head? with
          | none => ⟨st, log, [], .panicked⟩
          | some m0 =>
            let v := m0.info.view
            let st := if v > st.view then { st with view := v } else st
            let log := messages.foldl (fun l m => l.add_message m st) log
            let effs := [Effect.commitBlock m0.get_blockD.block_id st.seq_num]
            let st := { st with phase := .finished }
            let r := on_block_commit env m0.get_blockD.block_id st log
            ⟨r.st, r.log, effs ++ r.effs, r.status⟩

/-- on_block_new from node.rs: drop blocks older than the current sequence
number; verify the consensus seal, failing the block and starting a view
change on failure; log a synthetic BlockNew message; catch up when the block
is one past the current height and the phase is not Finished; adopt the block
as working block when it is at the current height, broadcasting a PrePrepare
if primary. -/
def on_block_new (env : Env) (block : Block) (st : PbftState) (log : PbftLog) :
    NodeRes :=
  if block.block_num < st.seq_num then ⟨st, log, [], .ok⟩
  else
    match verify_consensus_seal env block st with
    | (.error e, veffs) =>
      let r := propose_view_change st log (st.view + 1)
      ⟨r.st, r.log, veffs ++ [.failBlock block.block_id] ++ r.effs, .error e⟩
    | (.ok _, veffs) =>
      let pbft_block := PbftBlock.fromBlock block
      let msg : PbftMessage := ⟨⟨.blockNew, st.view, block.block_num, st.id⟩, pbft_block⟩
      let log := log.add_message (ParsedMessage.from_pbft_message msg) st
      if block.block_num == st.seq_num + 1 && st.phase != .finished then
        let r := catchup env block st log
        ⟨r.st, r.log, veffs ++ r.effs, r.status⟩
      else if block.block_num == st.seq_num then
        let st := { st with working_block := some msg.block }
        if st.is_primary then
          ⟨st, log, veffs ++ broadcast_pbft_message st.seq_num .prePrepare pbft_block st, .ok⟩
        else ⟨st, log, veffs, .ok⟩
      else ⟨st, log, veffs, .ok⟩

/-- on_block_valid from node.rs: requires the validated block to be the
working block; then switch to Preparing and broadcast a Prepare. -/
def on_block_valid (block_id : BlockId) (st : PbftState) (log : PbftLog) :
    NodeRes :=
  match st.working_block with
  | some b =>
    if b.block_id == block_id then
      let st := st.switch_phase .preparing
      ⟨st, log, broadcast_pbft_message st.seq_num .prepare b st, .ok⟩
    else ⟨st, log, [], .error .notReadyForMessage⟩
  | none => ⟨st, log, [], .error .noWorkingBlock⟩

/-- on_peer_message from node.rs: while view changing, ignore everything but
ViewChange and NewView; otherwise dispatch on the message type. -/
def on_peer_message (msg : ParsedMessage) (st : PbftState) (log : PbftLog) :
    NodeRes :=
  let t := msg.info.msg_type
  if (match st.mode with | .viewChanging _ => true | _ => false) &&
      t != .viewChange && t != .newView then
    ⟨st, log, [], .ok⟩
  else
    match t with
    | .prePrepare => handle_pre_prepare msg st log
    | .prepare => handle_prepare msg st log
    | .commit => handle_commit msg st log
    | .viewChange => handle_view_change msg st log
    | .newView => handle_new_view msg st log
    | _ => ⟨st, log, [], .ok⟩

/-- The finalize_block step of try_publish from node.rs: publishing succeeds
or reports BlockNotReady without error; any other failure is an internal
error. -/
def try_publish_finalize (env : Env) (st : PbftState) (log : PbftLog) : NodeRes :=
  match env.finalize with
  | .done _ => ⟨st, log, [.finalizeBlock], .ok⟩
  | .notReady => ⟨st, log, [.finalizeBlock], .ok⟩
  | .failed => ⟨st, log, [.finalizeBlock], .error (.internalError "finalize failed")⟩

/-- try_publish from node.rs: only the primary in phase PrePreparing proceeds;
a summarize failure is not an error; the payload is empty through the first
block and a built seal afterwards; then finalize. -/
def try_publish (env : Env) (st : PbftState) (log : PbftLog) : NodeRes :=
  if !st.is_primary || st.phase ≠ .prePreparing then ⟨st, log, [], .ok⟩
  else
    match env.summarize with
    | none => ⟨st, log, [], .ok⟩
    | some summary =>
      if st.seq_num ≤ 1 then try_publish_finalize env st log
      else
        match build_seal st log summary with
        | none => ⟨st, log, [], .panicked⟩
        | some (.error e) => ⟨st, log, [], .error e⟩
        | some (.ok _) => try_publish_finalize env st log

/-- The two error outcomes of the engine's bounded-wait channel receive. -/
inductive RecvError where
  | timeout
  | disconnected
deriving DecidableEq

/-- The validator updates consumed by the engine loop (engine.rs).  The
peerMessage payload carries the result of ParsedMessage::from_peer_message
(none models a decode failure) plus the transport-level sender id. -/
inductive Update where
  | blockNew (b : Block)
  | blockValid (id : BlockId)
  | blockInvalid (id : BlockId)
  | blockCommit (id : BlockId)
  | peerMessage (parsed : Option ParsedMessage) (sender : PeerId)
  | shutdown
  | peerConnected (info : PeerId)
  | peerDisconnected (id : PeerId)
deriving DecidableEq

/-- How one iteration of handle_update in engine.rs ends: continue the loop
(Ok(true)), stop it (Ok(false)), surface a PbftError, or panic. -/
inductive HandleOut where
  | cont
  | stop
  | failed (e : PbftError)
  | panicked
deriving DecidableEq

/-- The result of one handle_update call. -/
structure EngineRes where
  st : PbftState
  log : PbftLog
  effs : List Effect
  out : HandleOut
deriving DecidableEq

/-- Lift a node handler result into an engine result: Ok becomes continue. -/
def liftNode (r : NodeRes) : EngineRes :=
  ⟨r.st, r.log, r.effs, match r.status with
    | .ok => .cont
    | .error e => .failed e
    | .panicked => .panicked⟩

/-- handle_update from engine.rs: dispatch one received update or channel
error.  BlockValid and BlockInvalid are ignored; a peer message is dropped
with an error when it fails to decode or when its signer does not match the
sender; Shutdown and a disconnected channel stop the loop; a channel timeout
does nothing. -/
def handle_update (env : Env) (incoming : Except RecvError Update)
    (st : PbftState) (log : PbftLog) : EngineRes :=
  match incoming with
  | .ok (.blockNew b) => liftNode (on_block_new env b st log)
  | .ok (.blockValid _) => ⟨st, log, [], .cont⟩
  | .ok (.blockInvalid _) => ⟨st, log, [], .cont⟩
  | .ok (.blockCommit id) => liftNode (on_block_commit env id st log)
  | .ok (.peerMessage parsed sender) =>
    match parsed with
    | none => ⟨st, log, [], .failed .serializationError⟩
    | some pm =>
      if pm.info.signer_id ≠ sender then
        ⟨st, log, [], .failed (.invalidMessage "sender and signer id mismatch")⟩
      else liftNode (on_peer_message pm st log)
  | .ok .shutdown => ⟨st, log, [], .stop⟩
  | .ok (.peerConnected _) => ⟨st, log, [], .cont⟩
  | .ok (.peerDisconnected _) => ⟨st, log, [], .cont⟩
  | .error .timeout => ⟨st, log, [], .cont⟩
  | .error .disconnected => ⟨st, log, [], .stop⟩

/-- One externally triggered invocation of a node entry point: the updates
dispatched by the engine plus the periodic try_publish of the ticker. -/
inductive Event where
  | blockNew (b : Block)
  | peerMessage (m : ParsedMessage)
  | blockValid (id : BlockId)
  | blockCommit (id : BlockId)
  | tryPublish
deriving DecidableEq

/-- Whether the event delivers a NewView-typed peer message. -/
def Event.deliversNewView : Event → Bool
  | .peerMessage m => m.info.msg_type == .newView
  | _ => false

/-- Dispatch one event into the corresponding node entry point. -/
def node_step (env : Env) (e : Event) (st : PbftState) (log : PbftLog) : NodeRes :=
  match e with
  | .blockNew b => on_block_new env b st log
  | .peerMessage m => on_peer_message m st log
  | .blockValid id => on_block_valid id st log
  | .blockCommit id => on_block_commit env id st log
  | .tryPublish => try_publish env st log

/-- The accumulated result of an execution: final state and log plus all
service calls made, in order. -/
structure ExecRes where
  st : PbftState
  log : PbftLog
  effs : List Effect
deriving DecidableEq

/-- Run a sequence of events against a node.  PbftErrors are logged by the
engine and the loop continues; a panic aborts the process, so no further
event runs. -/
def exec (env : Env) : List Event → PbftState → PbftLog → List Effect → ExecRes
  | [], st, log, effs => ⟨st, log, effs⟩
  | e :: es, st, log, effs =>
    let r := node_step env e st log
    if r.status = .panicked then ⟨r.st, r.log, effs ++ r.effs⟩
    else exec env es r.st r.log (effs ++ r.effs)

/-- Run a sequence of events from a starting configuration. -/
def run (env : Env) (events : List Event) (st : PbftState) (log : PbftLog) :
    ExecRes :=
  exec env events st log []

/-- All commit_block calls in an effect trace, as (height, block id) pairs. -/
def commitsOf (effs : List Effect) : List (Nat × BlockId) :=
  effs.filterMap (fun e => match e with
    | .commitBlock id h => some (h, id)
    | _ => none)

/-- The blocks committed at a given height in an effect trace. -/
def commitsAt (h : Nat) (effs : List Effect) : List BlockId :=
  (commitsOf effs).filterMap (fun p => if p.1 = h then some p.2 else none)

/-- Modelled from the spec: the state at startup with no persisted storage,
for a chain head at the given height: view 0, next sequence number one past
the head, phase PrePreparing, mode Normal, no working block, f computed from
the peer count. -/
def PbftState.initial (id : PeerId) (peers : List PeerId) (head_block_num : Nat)
    (period : Nat) (vc_duration : Nat) : PbftState :=
  ⟨id, peers, (peers.length - 1) / 3, 0, head_block_num + 1, .prePreparing,
   .normal, none, period, vc_duration, ⟨false, 0⟩, ⟨false, 0⟩⟩

/-- The empty message log with the given retention bound. -/
def PbftLog.initial (max_log : Nat) : PbftLog := ⟨[], [], max_log⟩

/-- A height h is allowed to carry a commit in the given state: heights below
seq_num, or seq_num itself once the phase is Finished. -/
def regionOk (st : PbftState) (h : Nat) : Prop :=
  h < st.seq_num ∨ (h = st.seq_num ∧ st.phase = .finished)

/-- What a single NewView-free step may do to the commit trace: either no
commit, with seq_num non-decreasing and the Finished region only left by
advancing seq_num; or exactly one commit at the current height from a
non-Finished phase, ending at a larger height or Finished at the same
height. -/
def StepSpec (st st' : PbftState) (effs : List Effect) : Prop :=
  (commitsOf effs = [] ∧ st.seq_num ≤ st'.seq_num ∧
    (st.phase = .finished →
      st.seq_num < st'.seq_num ∨ (st'.seq_num = st.seq_num ∧ st'.phase = .finished)))
  ∨ ((commitsOf effs).map Prod.fst = [st.seq_num] ∧ st.phase ≠ .finished ∧
      (st.seq_num < st'.seq_num ∨ (st'.seq_num = st.seq_num ∧ st'.phase = .finished)))

/-- The execution invariant behind per-height commit uniqueness: every height
has at most one distinct committed block, and a height with a commit lies in
the region allowed by the current state. -/
def ExecInv (st : PbftState) (effs : List Effect) : Prop :=
  (∀ h, (commitsAt h effs).dedup.length ≤ 1) ∧
  (∀ h, commitsAt h effs ≠ [] → regionOk st h)

/-- A step that emits no commit keeps seq_num non-decreasing and leaves the
Finished region only by advancing seq_num. -/
def Preserves (st st' : PbftState) : Prop :=
  st.seq_num ≤ st'.seq_num ∧
  (st.phase = .finished →
    st.seq_num < st'.seq_num ∨ (st'.seq_num = st.seq_num ∧ st'.phase = .finished))

/-- Whether a verification result is the NotFromPrimary error. -/
def isNotFromPrimaryErr : Except PbftError Unit → Bool
  | .error .notFromPrimary => true
  | _ => false

/-- A four-peer environment whose on-chain peer list matches the node's, with
no block ready to publish. -/
def envA : Env := ⟨fun _ => [0, 1, 2, 3], none, .notReady⟩

/-- An environment whose on-chain peer list differs from the node's. -/
def envB : Env := ⟨fun _ => [9, 8, 7, 6, 5], none, .notReady⟩

/-- A peer-received message of the given type, view, sequence number, signer
and block, with valid signature material. -/
def mkMsg (t : PbftMessageType) (v seq : Nat) (signer : PeerId) (b : PbftBlock) :
    ParsedMessage :=
  ⟨false, .message ⟨⟨t, v, seq, signer⟩, b⟩, some signer, true, true⟩

/-- A candidate block at height 1 proposed by peer 0. -/
def blockA : Block := ⟨101, 100, 0, 1, .empty, 0⟩

/-- The message projection of blockA. -/
def pbftBlockA : PbftBlock := ⟨101, 100, 0, 1, 0⟩

/-- A different candidate block at height 1, proposed by peer 1. -/
def blockB : Block := ⟨201, 100, 1, 1, .empty, 0⟩

/-- The message projection of blockB. -/
def pbftBlockB : PbftBlock := ⟨201, 100, 1, 1, 0⟩

/-- Node 2 of the four-peer network at startup (chain head 0, forced view
change period 30). -/
def st0 : PbftState := PbftState.initial 2 [0, 1, 2, 3] 0 30 4000

/-- An empty log retaining 1000 heights. -/
def log0 : PbftLog := PbftLog.initial 1000

/-- A signed ViewChange vote for the given view and sequence number. -/
def vcVote (v seq : Nat) (signer : PeerId) : PbftSignedVote :=
  ⟨some ⟨⟨.viewChange, v, seq, signer⟩, defaultPbftBlock⟩, some signer, true, true⟩

/-- A valid NewView for view 1 from peer 1 (the primary for view 1), carrying
2f = 2 ViewChange votes from peers 0 and 3. -/
def nv1 : PbftNewView := ⟨⟨.newView, 1, 0, 1⟩, [vcVote 1 0 0, vcVote 1 0 3]⟩

/-- The NewView nv1 as a parsed peer message. -/
def nvMsg1 : ParsedMessage := ⟨false, .newView nv1, some 1, true, true⟩

/-- An execution of node 2 that commits block 101 at height 1 through the
normal three-phase protocol, processes a valid NewView for view 1 (which
resets to the start state while keeping seq_num), and then commits a
different block 201 at the same height 1 in the new view. -/
def eventsC1 : List Event :=
  [ .blockNew blockA,
    .peerMessage (mkMsg .prePrepare 0 1 0 pbftBlockA),
    .blockValid 101,
    .peerMessage (mkMsg .prepare 0 1 0 pbftBlockA),
    .peerMessage (mkMsg .prepare 0 1 1 pbftBlockA),
    .peerMessage (mkMsg .prepare 0 1 2 pbftBlockA),
    .peerMessage (mkMsg .commit 0 1 0 pbftBlockA),
    .peerMessage (mkMsg .commit 0 1 1 pbftBlockA),
    .peerMessage (mkMsg .commit 0 1 2 pbftBlockA),
    .peerMessage nvMsg1,
    .blockNew blockB,
    .peerMessage (mkMsg .prePrepare 1 1 1 pbftBlockB),
    .blockValid 201,
    .peerMessage (mkMsg .prepare 1 1 1 pbftBlockB),
    .peerMessage (mkMsg .prepare 1 1 2 pbftBlockB),
    .peerMessage (mkMsg .prepare 1 1 3 pbftBlockB),
    .peerMessage (mkMsg .commit 1 1 1 pbftBlockB),
    .peerMessage (mkMsg .commit 1 1 2 pbftBlockB),
    .peerMessage (mkMsg .commit 1 1 3 pbftBlockB) ]

/-- The NewView-free prefix of eventsC1: one complete three-phase commit. -/
def eventsNoNV : List Event := eventsC1.take 9

/-- An invalid NewView for view 0 (no votes) from peer 0, the primary for
view 0. -/
def nvDown : PbftNewView := ⟨⟨.newView, 0, 0, 0⟩, []⟩

/-- The NewView nvDown as a parsed peer message. -/
def nvDownMsg : ParsedMessage := ⟨false, .newView nvDown, some 0, true, true⟩

/-- Node 2 after having moved to view 1. -/
def stView1 : PbftState := { st0 with view := 1 }

/-- An invalid NewView for view 7 (no votes) from peer 3, the primary for
view 7. -/
def nv7 : PbftNewView := ⟨⟨.newView, 7, 0, 3⟩, []⟩

/-- The NewView nv7 as a parsed peer message. -/
def nv7Msg : ParsedMessage := ⟨false, .newView nv7, some 3, true, true⟩

/-- A signed Commit vote for block 101 at height 1, carried in a seal. -/
def commitVote (v : Nat) (signer : PeerId) : PbftSignedVote :=
  ⟨some ⟨⟨.commit, v, 1, signer⟩, pbftBlockA⟩, some signer, true, true⟩

/-- A seal for block 101 whose first vote has view 0 and whose second vote
has view 5. -/
def sealC5 : PbftSeal := ⟨0, 101, [commitVote 0 0, commitVote 5 3]⟩

/-- A block at height 2 carrying sealC5, linking to block 101. -/
def blockC5 : Block := ⟨202, 101, 1, 2, .valid sealC5, 0⟩

/-- Node 2 working on block 101 at height 1. -/
def stC5 : PbftState := { st0 with working_block := some pbftBlockA }

/-- The reconstructed Commit messages of sealC5. -/
def msgsC5 : List ParsedMessage :=
  [ParsedMessage.from_pbft_message ⟨⟨.commit, 0, 1, 0⟩, pbftBlockA⟩,
   ParsedMessage.from_pbft_message ⟨⟨.commit, 5, 1, 3⟩, pbftBlockA⟩]

/-- The first reconstructed message of sealC5. -/
def m0C5 : ParsedMessage := ParsedMessage.from_pbft_message ⟨⟨.commit, 0, 1, 0⟩, pbftBlockA⟩

/-- The remaining reconstructed messages of sealC5. -/
def restC5 : List ParsedMessage :=
  [ParsedMessage.from_pbft_message ⟨⟨.commit, 5, 1, 3⟩, pbftBlockA⟩]

/-- The log after catchup adds the reconstructed messages of sealC5. -/
def log1C5 : PbftLog := msgsC5.foldl (fun l m => l.add_message m stC5) log0

/-- A working block whose height 0 links to blockA, used to drive catchup at
seq_num 0 where seal verification is skipped. -/
def wb0 : PbftBlock := ⟨100, 99, 0, 0, 0⟩

/-- Node 2 at seq_num 0 working on block 100: the state in which blockA
(height 1, empty payload) triggers the catchup panic. -/
def stC10 : PbftState := { st0 with seq_num := 0, working_block := some wb0 }

/-- Node 2 in phase Committing at height 1. -/
def stC2 : PbftState := { st0 with phase := .committing }

/-- A log holding the accepted PrePrepare for block 101 and Commits from
peers 0 and 1. -/
def logC2 : PbftLog :=
  ⟨[mkMsg .prePrepare 0 1 0 pbftBlockA, mkMsg .commit 0 1 0 pbftBlockA,
    mkMsg .commit 0 1 1 pbftBlockA], [], 1000⟩

/-- The Commit from peer 3 that completes the 2f+1 quorum in logC2. -/
def cMsgC2 : ParsedMessage := mkMsg .commit 0 1 3 pbftBlockA

/-- A log holding a BlockNew for block 201 and a PrePrepare for the
conflicting block 101 at the same view and sequence number. -/
def logC6 : PbftLog :=
  ⟨[mkMsg .blockNew 0 1 2 pbftBlockB, mkMsg .prePrepare 0 1 0 pbftBlockA], [], 1000⟩

/-- The PrePrepare from the primary for block 201, conflicting with the
logged PrePrepare for block 101. -/
def ppMsgC6 : ParsedMessage := mkMsg .prePrepare 0 1 0 pbftBlockB

/-- A working block with id 77 at height 29. -/
def wb77 : PbftBlock := ⟨77, 76, 0, 29, 0⟩

/-- Node 2 Finished at height 29 on block 77: committing it lands on the
forced view change boundary 30. -/
def stC7 : PbftState := { st0 with seq_num := 29, phase := .finished, working_block := some wb77 }

/-- Node 2 Finished at height 5 on block 77: committing it is not at a forced
view change boundary. -/
def stC7b : PbftState := { st0 with seq_num := 5, phase := .finished, working_block := some wb77 }

/-- A block at height 2 with an empty payload. -/
def blockE : Block := ⟨202, 101, 1, 2, .empty, 0⟩

/-- A block at height 2 whose seal names a different previous block. -/
def blockP2 : Block := ⟨202, 101, 1, 2, .valid ⟨0, 999, []⟩, 0⟩

/-- A block at height 2 whose seal carries a different summary. -/
def blockS2 : Block := ⟨202, 101, 1, 2, .valid ⟨7, 101, []⟩, 0⟩

/-- A block at height 2 whose seal carries only one vote (fewer than 2f). -/
def blockFew : Block := ⟨202, 101, 1, 2, .valid ⟨0, 101, [commitVote 0 0]⟩, 0⟩

/-- A block at height 2 signed by peer 1 whose seal includes a vote by the
block signer itself. -/
def blockSig : Block := ⟨202, 101, 1, 2, .valid ⟨0, 101, [commitVote 0 0, commitVote 0 1]⟩, 0⟩

/-- C3: the claim that state.view never decreases across handler invocations
fails on the code: on_peer_message with a NewView for view 0 whose
verification fails with an error other than NotFromPrimary, received in mode
Normal at view 1, falls through the Err(e) arm of handle_new_view and adopts
view 0, decreasing the view from 1 to 0. -/
theorem c3_view_decreases_on_invalid_new_view :
    stView1.mode = .normal ∧ stView1.view = 1 ∧
    (verify_new_view nvDown stView1).isOk = false ∧
    isNotFromPrimaryErr (verify_new_view nvDown stView1) = false ∧
    (on_peer_message nvDownMsg stView1 log0).st.view = 0 ∧
    (on_peer_message nvDownMsg stView1 log0).status = .ok := by decide

/-- C4: the claim that handle_new_view adopts the message's view only when
verify_new_view succeeds fails on the code: for a NewView for view 7 from the
primary for view 7 but carrying no votes, verification fails with an error
other than NotFromPrimary, yet in mode Normal the handler still sets
state.view to 7 and resets to the start state (the Err(e) arm of the match
falls through to the view-update code). -/
theorem c4_new_view_adopted_without_verification :
    st0.mode = .normal ∧
    (verify_new_view nv7 st0).isOk = false ∧
    isNotFromPrimaryErr (verify_new_view nv7 st0) = false ∧
    (handle_new_view nv7Msg st0 log0).st.view = 7 ∧
    (handle_new_view nv7Msg st0 log0).st.mode = .normal ∧
    (handle_new_view nv7Msg st0 log0).st.phase = .prePreparing ∧
    (handle_new_view nv7Msg st0 log0).status = .ok := by decide

/-- C10: on_block_new panics instead of returning an error when a block with
block_num equal to seq_num + 1 and block_num below 2 (so seal verification is
skipped) arrives while the phase is not Finished, the working block passes
the catchup linkage checks, and the payload decodes to a seal with zero
votes: catchup indexes messages[0] on an empty vector. -/
theorem c10_catchup_empty_seal_panic :
    blockA.block_num = stC10.seq_num + 1 ∧ blockA.block_num < 2 ∧
    stC10.phase ≠ .finished ∧
    blockA.payload.parse = some ⟨0, 0, []⟩ ∧
    (on_block_new envA blockA stC10 log0).status = .panicked := by decide

/-- C5 counterexample: during catch-up the node's view is not raised to the
view of an arbitrary seal vote: with a seal whose votes carry views 0 and 5
and a node at view 0, the code consults only the first vote's view and leaves
the view at 0, though a vote with view 5 exceeding the current view is in the
seal. -/
theorem c5_counterexample :
    blockC5.block_num = stC5.seq_num + 1 ∧ stC5.phase ≠ .finished ∧
    stC5.view = 0 ∧
    sealC5.previous_commit_votes.filterMap
      (fun v => v.message.map (fun m => m.info.view)) = [0, 5] ∧
    (on_block_new envA blockC5 stC5 log0).status = .ok ∧
    (on_block_new envA blockC5 stC5 log0).st.view = 0 := by decide

/-- C7 counterexample: on an accepted BlockCommit that lands on a forced view
change boundary, update_membership is not called at all (the || in
on_block_commit short-circuits): no get_settings query is made and the peer
list is left unchanged even though the on-chain peers at the committed block
differ. -/
theorem c7_counterexample :
    stC7.phase = .finished ∧ stC7.working_block = some wb77 ∧ wb77.block_id = 77 ∧
    sameSet (envB.settings_peers 77) stC7.peer_ids = false ∧
    (on_block_commit envB 77 stC7 log0).st.seq_num = 30 ∧
    Effect.getSettings 77 ∉ (on_block_commit envB 77 stC7 log0).effs ∧
    (on_block_commit envB 77 stC7 log0).st.peer_ids = [0, 1, 2, 3] ∧
    (on_block_commit envB 77 stC7 log0).st.view = stC7.view + 1 := by decide

/-- C1 counterexample: a reachable execution of a single node (normal
three-phase commit of block 101 at height 1, then a valid NewView for view 1,
then a three-phase commit of block 201 in the new view) calls commit_block
for two distinct blocks at height 1, so more than one block reaches Finished
at that height. -/
theorem c1_counterexample :
    commitsAt 1 (run envA eventsC1 st0 log0).effs = [101, 201] ∧
    ¬ (commitsAt 1 (run envA eventsC1 st0 log0).effs).dedup.length ≤ 1 := by decide

/-- C2: whenever handle_commit calls commit_block, the handled Commit message
is for the current seq_num, the node was in phase Committing and ends in
Finished, a matching PrePrepare is in the log, and the log (with the incoming
message added) holds at least 2f+1 Commits from distinct signers matching
that PrePrepare's view, sequence number and block. -/
theorem c2_commit_quorum_conditions (msg : ParsedMessage) (st : PbftState)
    (log : PbftLog)
    (hc : commitsOf (handle_commit msg st log).effs ≠ []) :
    msg.info.seq_num = st.seq_num ∧ st.phase = .committing ∧
    (handle_commit msg st log).st.phase = .finished ∧
    ∃ m pre_prep, msg.wrapper = .message m ∧
      commitsOf (handle_commit msg st log).effs = [(st.seq_num, m.block.block_id)] ∧
      (log.add_message msg st).get_one_msg msg.info .prePrepare = some pre_prep ∧
      (log.add_message msg st).log_has_required_msgs .commit pre_prep true
        (2 * st.f + 1) = true := by
  rcases hw : msg.wrapper with m | nv
  · have hgb : msg.get_block? = some m.block := by
      unfold ParsedMessage.get_block?; rw [hw]
    have hinfo : msg.info = m.info := by
      unfold ParsedMessage.info; rw [hw]
    by_cases hcond : (m.info.seq_num == st.seq_num && st.phase == .committing) = true
    · rcases hpp : (log.add_message msg st).get_one_msg m.info .prePrepare with _ | pp
      · simp [handle_commit, hgb, hinfo, hcond, hpp, commitsOf] at hc
      · by_cases hq : (log.add_message msg st).log_has_required_msgs .commit pp true
          (2 * st.f + 1) = true
        · have hboth : m.info.seq_num = st.seq_num ∧ st.phase = .committing := by
            simpa [Bool.and_eq_true, beq_iff_eq] using hcond
          refine ⟨by rw [hinfo]; exact hboth.1, hboth.2, ?_, m, pp, rfl,
            ?_, by rw [hinfo]; exact hpp, hq⟩
          · simp [handle_commit, hgb, hinfo, hcond, hpp, hq, hboth.1,
              PbftState.switch_phase, hboth.2, PbftPhase.next]
          · simp [handle_commit, hgb, hinfo, hcond, hpp, hq, commitsOf, hboth.1,
              hboth.2, PbftState.switch_phase, PbftPhase.next]
        · simp [handle_commit, hgb, hinfo, hcond, hpp, hq, commitsOf] at hc
    · simp [handle_commit, hgb, hinfo, hcond, commitsOf] at hc
  · have hgb : msg.get_block? = none := by
      unfold ParsedMessage.get_block?; rw [hw]
    simp [handle_commit, hgb, commitsOf] at hc

/-- C2 witness: a Commit from peer 3 completing the 2f+1 quorum in a log
holding the PrePrepare for block 101 and Commits from peers 0 and 1 makes
handle_commit call commit_block, for the current seq_num, from phase
Committing into Finished. -/
theorem c2_commit_quorum_conditions_witness :
    cMsgC2.info.seq_num = stC2.seq_num ∧ stC2.phase = .committing ∧
    (handle_commit cMsgC2 stC2 logC2).st.phase = .finished ∧
    ∃ m pre_prep, cMsgC2.wrapper = .message m ∧
      commitsOf (handle_commit cMsgC2 stC2 logC2).effs = [(stC2.seq_num, m.block.block_id)] ∧
      (logC2.add_message cMsgC2 stC2).get_one_msg cMsgC2.info .prePrepare = some pre_prep ∧
      (logC2.add_message cMsgC2 stC2).log_has_required_msgs .commit pre_prep true
        (2 * stC2.f + 1) = true :=
  c2_commit_quorum_conditions cMsgC2 stC2 logC2 (by decide)

/-- C6: when a PrePrepare from the current primary has a matching BlockNew in
the log but the log already holds a PrePrepare for the same view and sequence
number with a different block, the node fails every conflicting block
(including the newly received one) at the validator, starts a view change to
view + 1 (broadcasting a ViewChange), and leaves the log unchanged, so the
new PrePrepare is not added. -/
theorem c6_conflicting_pre_prepare (msg : ParsedMessage) (m : PbftMessage)
    (st : PbftState) (log : PbftLog) (conflicts : List PbftBlock)
    (hw : msg.wrapper = .message m)
    (ht : m.info.msg_type = .prePrepare)
    (hmode : st.mode = .normal)
    (hp : m.info.signer_id = st.get_primary_id)
    (hbn : (log.get_messages_of_type_seq .blockNew m.info.seq_num).any
        (fun bn => bn.get_blockD == m.block) = true)
    (hconf : conflicts = (log.get_messages_of_type_seq_view .prePrepare
        m.info.seq_num m.info.view).filterMap (fun em =>
          if em.get_blockD ≠ m.block then some em.get_blockD else none))
    (hne : conflicts ≠ []) :
    (on_peer_message msg st log).st.mode = .viewChanging (st.view + 1) ∧
    (∀ b ∈ conflicts ++ [m.block],
      Effect.failBlock b.block_id ∈ (on_peer_message msg st log).effs) ∧
    (on_peer_message msg st log).log = log ∧
    Effect.broadcastMsg .viewChange
      (.message ⟨⟨.viewChange, st.view + 1, st.seq_num - 1, st.id⟩, defaultPbftBlock⟩)
      ∈ (on_peer_message msg st log).effs := by
  have hgb : msg.get_block? = some m.block := by
    unfold ParsedMessage.get_block?; rw [hw]
  have hinfo : msg.info = m.info := by
    unfold ParsedMessage.info; rw [hw]
  have hmain : on_peer_message msg st log =
      NodeRes.mk
        { st with mode := .viewChanging (st.view + 1),
                  view_change_timeout := ⟨true, st.view_change_duration * (st.view + 1 - st.view)⟩ }
        log
        ((conflicts ++ [m.block]).map (fun b => Effect.failBlock b.block_id) ++
          [.broadcastMsg .viewChange
            (.message ⟨⟨.viewChange, st.view + 1, st.seq_num - 1, st.id⟩, defaultPbftBlock⟩)])
        .ok := by
    rw [on_peer_message]
    simp only [hinfo, ht, hmode]
    rw [handle_pre_prepare]
    simp only [hinfo, hgb, hp, hbn, ← hconf, hne]
    simp [propose_view_change, hmode, hne]
  rw [hmain]
  refine ⟨rfl, ?_, rfl, ?_⟩
  · intro b hb
    simp only [List.mem_append, List.mem_map, List.mem_singleton]
    exact Or.inl ⟨b, by simpa using hb, rfl⟩
  · simp

/-- C6 witness: a PrePrepare for block 201 from the primary, with a matching
BlockNew logged and a conflicting logged PrePrepare for block 101 at the same
view and sequence number, makes the node fail both blocks, move to
ViewChanging(1) and leave the log unchanged. -/
theorem c6_conflicting_pre_prepare_witness :
    (on_peer_message ppMsgC6 st0 logC6).st.mode = .viewChanging (st0.view + 1) ∧
    (∀ b ∈ [pbftBlockA] ++ [pbftBlockB],
      Effect.failBlock b.block_id ∈ (on_peer_message ppMsgC6 st0 logC6).effs) ∧
    (on_peer_message ppMsgC6 st0 logC6).log = logC6 ∧
    Effect.broadcastMsg .viewChange
      (.message ⟨⟨.viewChange, st0.view + 1, st0.seq_num - 1, st0.id⟩, defaultPbftBlock⟩)
      ∈ (on_peer_message ppMsgC6 st0 logC6).effs :=
  c6_conflicting_pre_prepare ppMsgC6 ⟨⟨.prePrepare, 0, 1, 0⟩, pbftBlockB⟩ st0 logC6
    [pbftBlockA] rfl rfl rfl (by decide) (by decide) (by decide) (by decide)

/-- The voter-set checks fail whenever the voters are not all contained in
the previous block's peers minus the block signer, or number fewer than 2f. -/
theorem seal_voters_check_err (env : Env) (block : Block) (st : PbftState)
    (ids : List PeerId)
    (hnot : ¬ ((ids.all (fun id => ((env.settings_peers block.previous_id).filter
        (fun pid => pid != block.signer_id)).contains id)) = true ∧
      2 * st.f ≤ ids.length)) :
    (seal_voters_check env block st ids).1.isOk = false := by
  unfold seal_voters_check
  by_cases hall : (ids.all (fun id => ((env.settings_peers block.previous_id).filter
      (fun pid => pid != block.signer_id)).contains id)) = true
  · have hcond : ¬ ((!(ids.all (fun id => ((env.settings_peers block.previous_id).filter
        (fun pid => pid != block.signer_id)).contains id))) = true) := by
      rw [hall]; decide
    rw [if_neg hcond]
    have hlen : ids.length < 2 * st.f := by
      rcases Nat.lt_or_ge ids.length (2 * st.f) with h | h
      · exact h
      · exact absurd ⟨hall, h⟩ hnot
    rw [if_pos hlen]
    rfl
  · have hof : (ids.all (fun id => ((env.settings_peers block.previous_id).filter
        (fun pid => pid != block.signer_id)).contains id)) = false := by
      cases h : (ids.all (fun id => ((env.settings_peers block.previous_id).filter
        (fun pid => pid != block.signer_id)).contains id))
      · rfl
      · exact absurd h hall
    have hcond : (!(ids.all (fun id => ((env.settings_peers block.previous_id).filter
        (fun pid => pid != block.signer_id)).contains id))) = true := by
      rw [hof]; rfl
    rw [if_pos hcond]
    rfl

/-- C8: verify_consensus_seal accepts every block below height 2 without
examining the payload (the result does not depend on it); for heights at
least 2 it returns an error when the payload is empty, when the decoded
seal's previous id or summary differs from the block's, or when the distinct
verified voter set is not contained in the previous block's on-chain peers
minus the block signer or has fewer than 2f members. -/
theorem c8_verify_consensus_seal (env : Env) (st : PbftState) (block : Block) :
    (block.block_num < 2 → verify_consensus_seal env block st = (.ok (), [])) ∧
    (2 ≤ block.block_num →
      (block.payload = .empty →
        (verify_consensus_seal env block st).1.isOk = false) ∧
      (∀ sl, block.payload.parse = some sl →
        (sl.previous_id ≠ block.previous_id →
          (verify_consensus_seal env block st).1.isOk = false) ∧
        (sl.summary ≠ block.summary →
          (verify_consensus_seal env block st).1.isOk = false) ∧
        (∀ ids,
          collect_vote_ids sl.previous_commit_votes .commit (seal_vote_criteria sl) =
            .ok ids →
          ¬ ((ids.all (fun id => ((env.settings_peers block.previous_id).filter
              (fun pid => pid != block.signer_id)).contains id)) = true ∧
             2 * st.f ≤ ids.length) →
          (verify_consensus_seal env block st).1.isOk = false))) := by
  constructor
  · intro hsmall
    unfold verify_consensus_seal
    simp [hsmall]
  · intro h2
    have hnl : ¬ block.block_num < 2 := by omega
    constructor
    · intro hemp
      unfold verify_consensus_seal
      simp [hnl, hemp, SealPayload.is_empty, Except.isOk, Except.toBool]
    · intro sl hsl
      by_cases hemp : block.payload = .empty
      · have : (⟨0, 0, []⟩ : PbftSeal) = sl := by
          rw [hemp] at hsl; simpa [SealPayload.parse] using hsl
        refine ⟨?_, ?_, ?_⟩ <;> intro _ <;>
          (unfold verify_consensus_seal;
           simp [hnl, hemp, SealPayload.is_empty, Except.isOk, Except.toBool])
      · have hne : block.payload.is_empty = false := by
          cases hp : block.payload <;> simp_all [SealPayload.is_empty]
        refine ⟨?_, ?_, ?_⟩
        · intro hprev
          unfold verify_consensus_seal
          simp [hnl, hne, hsl, hprev, Except.isOk, Except.toBool]
        · intro hsum
          by_cases hprev : sl.previous_id = block.previous_id
          · unfold verify_consensus_seal
            simp [hnl, hne, hsl, hprev, hsum, Except.isOk, Except.toBool]
          · unfold verify_consensus_seal
            simp [hnl, hne, hsl, hprev, Except.isOk, Except.toBool]
        · intro ids hids hnot
          by_cases hprev : sl.previous_id = block.previous_id
          · by_cases hsum : sl.summary = block.summary
            · have hred : verify_consensus_seal env block st =
                  seal_voters_check env block st ids := by
                unfold verify_consensus_seal
                simp [hnl, hne, hsl, hprev, hsum, hids]
              rw [hred]
              exact seal_voters_check_err env block st ids hnot
            · unfold verify_consensus_seal
              simp [hnl, hne, hsl, hprev, hsum, Except.isOk, Except.toBool]
          · unfold verify_consensus_seal
            simp [hnl, hne, hsl, hprev, Except.isOk, Except.toBool]

/-- C8 witness: block 1 is accepted with an empty payload; at height 2 an
empty payload, a mismatched previous id, a mismatched summary, a single vote
(fewer than 2f) and a voter set containing the block's own signer are all
rejected. -/
theorem c8_verify_consensus_seal_witness :
    verify_consensus_seal envA blockA st0 = (.ok (), []) ∧
    (verify_consensus_seal envA blockE st0).1.isOk = false ∧
    (verify_consensus_seal envA blockP2 st0).1.isOk = false ∧
    (verify_consensus_seal envA blockS2 st0).1.isOk = false ∧
    (verify_consensus_seal envA blockFew st0).1.isOk = false ∧
    (verify_consensus_seal envA blockSig st0).1.isOk = false :=
  ⟨(c8_verify_consensus_seal envA st0 blockA).1 (by decide),
   ((c8_verify_consensus_seal envA st0 blockE).2 (by decide)).1 (by decide),
   (((c8_verify_consensus_seal envA st0 blockP2).2 (by decide)).2 ⟨0, 999, []⟩
     (by decide)).1 (by decide),
   ((((c8_verify_consensus_seal envA st0 blockS2).2 (by decide)).2 ⟨7, 101, []⟩
     (by decide)).2).1 (by decide),
   ((((c8_verify_consensus_seal envA st0 blockFew).2 (by decide)).2 ⟨0, 101, [commitVote 0 0]⟩
     (by decide)).2).2 [0] (by decide) (by decide),
   ((((c8_verify_consensus_seal envA st0 blockSig).2 (by decide)).2
     ⟨0, 101, [commitVote 0 0, commitVote 0 1]⟩
     (by decide)).2).2 [0, 1] (by decide) (by decide)⟩

/-- A lifted node handler result never stops the engine loop. -/
theorem liftNode_out_ne_stop (r : NodeRes) : (liftNode r).out ≠ .stop := by
  cases r with
  | mk st log effs status => cases status <;> simp [liftNode]

/-- Every update other than Shutdown and a disconnected channel leaves the
engine loop running. -/
theorem handle_update_out_ne_stop (env : Env) (incoming : Except RecvError Update)
    (st : PbftState) (log : PbftLog)
    (h1 : incoming ≠ .ok .shutdown) (h2 : incoming ≠ .error .disconnected) :
    (handle_update env incoming st log).out ≠ .stop := by
  cases incoming with
  | ok u =>
    cases u with
    | blockNew b =>
      show (liftNode (on_block_new env b st log)).out ≠ .stop
      exact liftNode_out_ne_stop _
    | blockValid id => simp [handle_update]
    | blockInvalid id => simp [handle_update]
    | blockCommit id =>
      show (liftNode (on_block_commit env id st log)).out ≠ .stop
      exact liftNode_out_ne_stop _
    | peerMessage parsed sender =>
      rcases parsed with _ | pm
      · simp [handle_update]
      · by_cases hs : pm.info.signer_id = sender
        · have heq : handle_update env (.ok (.peerMessage (some pm) sender)) st log =
              liftNode (on_peer_message pm st log) := by
            simp [handle_update, hs]
          rw [heq]
          exact liftNode_out_ne_stop _
        · simp [handle_update, hs]
    | shutdown => exact absurd rfl h1
    | peerConnected i => simp [handle_update]
    | peerDisconnected i => simp [handle_update]
  | error e =>
    cases e with
    | timeout => simp [handle_update]
    | disconnected => exact absurd rfl h2

/-- C9: handle_update returns the stop signal exactly for the Shutdown update
and the channel-disconnected error; a channel timeout returns continue
without touching the node state, the log or the validator. -/
theorem c9_handle_update_stop (env : Env) (incoming : Except RecvError Update)
    (st : PbftState) (log : PbftLog) :
    ((handle_update env incoming st log).out = .stop ↔
      (incoming = .ok .shutdown ∨ incoming = .error .disconnected)) ∧
    (incoming = .error .timeout →
      handle_update env incoming st log = ⟨st, log, [], .cont⟩) := by
  constructor
  · constructor
    · intro hstop
      by_contra hno
      push_neg at hno
      exact handle_update_out_ne_stop env incoming st log hno.1 hno.2 hstop
    · rintro (rfl | rfl) <;> rfl
  · rintro rfl
    rfl

/-- C9 witness: Shutdown stops the loop, a BlockCommit for a block that is
not being finished does not, and a channel timeout is an exact no-op. -/
theorem c9_handle_update_stop_witness :
    (handle_update envA (.ok .shutdown) st0 log0).out = .stop ∧
    ¬ (handle_update envA (.ok (.blockCommit 5)) st0 log0).out = .stop ∧
    handle_update envA (.error .timeout) st0 log0 = ⟨st0, log0, [], .cont⟩ :=
  ⟨(c9_handle_update_stop envA (.ok .shutdown) st0 log0).1.mpr (Or.inl rfl),
   fun h => by
    rcases (c9_handle_update_stop envA (.ok (.blockCommit 5)) st0 log0).1.mp h with h2 | h2 <;>
      simp at h2,
   (c9_handle_update_stop envA (.error .timeout) st0 log0).2 rfl⟩

/-- C5 (amended): when catch-up succeeds, the node's view is raised to the
first seal vote's view exactly when that view exceeds the current one (later
votes are not consulted), every reconstructed Commit message is passed to the
log's add_message (which drops stale-view and duplicate votes), the first
vote's block is committed at the current height, and on_block_commit then
runs on the resulting state. -/
theorem c5_catchup_first_vote_view (env : Env) (st : PbftState) (log : PbftLog)
    (block : Block) (wb : PbftBlock) (sl : PbftSeal)
    (msgs : List ParsedMessage) (m0 : ParsedMessage) (rest : List ParsedMessage)
    (st1 : PbftState) (log1 : PbftLog)
    (hwb : st.working_block = some wb)
    (hnum : block.block_num = wb.block_num + 1)
    (hid : block.previous_id = wb.block_id)
    (hparse : block.payload.parse = some sl)
    (hmsgs : parse_seal_messages sl.previous_commit_votes = some msgs)
    (hhead : msgs = m0 :: rest)
    (hst1 : st1 = if m0.info.view > st.view then { st with view := m0.info.view } else st)
    (hlog1 : log1 = msgs.foldl (fun l m => l.add_message m st1) log) :
    catchup env block st log =
      ⟨(on_block_commit env m0.get_blockD.block_id { st1 with phase := .finished } log1).st,
       (on_block_commit env m0.get_blockD.block_id { st1 with phase := .finished } log1).log,
       Effect.commitBlock m0.get_blockD.block_id st.seq_num ::
         (on_block_commit env m0.get_blockD.block_id { st1 with phase := .finished } log1).effs,
       (on_block_commit env m0.get_blockD.block_id { st1 with phase := .finished } log1).status⟩ ∧
    st1.view = (if m0.info.view > st.view then m0.info.view else st.view) := by
  subst hhead
  subst hst1
  subst hlog1
  by_cases hv : m0.info.view > st.view
  · constructor
    · unfold catchup
      simp [hwb, hnum, hid, hparse, hmsgs, hv]
    · simp [hv]
  · constructor
    · unfold catchup
      simp [hwb, hnum, hid, hparse, hmsgs, hv]
    · simp [hv]

/-- C5 witness: on the concrete catch-up with seal votes of views 0 and 5,
the resulting view is 0 (the first vote's view does not exceed it) and the
first vote's block 101 is committed at height 1. -/
theorem c5_catchup_first_vote_view_witness :
    (catchup envA blockC5 stC5 log0).st.view = 0 ∧
    (catchup envA blockC5 stC5 log0).effs.head? =
      some (.commitBlock 101 1) := by
  have h := c5_catchup_first_vote_view envA stC5 log0 blockC5 pbftBlockA sealC5
    msgsC5 m0C5 restC5 stC5 log1C5 (by decide) (by decide) (by decide) (by decide)
    (by decide) (by decide) (by decide) (by decide)
  constructor
  · rw [h.1]
    decide
  · rw [h.1]
    decide

/-- The common tail of on_block_commit keeps seq_num and view, always ends
normally, and adds no get_settings query beyond the ones given to it. -/
theorem on_block_commit_tail_spec (block_id : BlockId) (st : PbftState)
    (log : PbftLog) (effs0 : List Effect) :
    (on_block_commit_tail block_id st log effs0).st.seq_num = st.seq_num ∧
    (on_block_commit_tail block_id st log effs0).st.view = st.view ∧
    (on_block_commit_tail block_id st log effs0).status = .ok ∧
    (Effect.getSettings block_id ∈ (on_block_commit_tail block_id st log effs0).effs ↔
      Effect.getSettings block_id ∈ effs0) := by
  unfold on_block_commit_tail
  refine ⟨rfl, rfl, rfl, ?_⟩
  simp only [List.mem_append]
  constructor
  · rintro (h | h)
    · exact h
    · revert h
      split <;> simp
  · exact Or.inl

/-- C7 (amended): for every BlockCommit accepted by on_block_commit (phase
Finished and matching working block), seq_num advances by one, and the view
is incremented exactly when the new seq_num is a multiple of
forced_view_change_period or the on-chain membership at the committed block
differs from the node's; but update_membership (the get_settings read) runs
only when the forced-view-change test is false, because the || in the source
short-circuits. -/
theorem c7_membership_and_view_update (env : Env) (st : PbftState) (log : PbftLog)
    (block_id : BlockId) (wb : PbftBlock)
    (hph : st.phase = .finished)
    (hwb : st.working_block = some wb)
    (hid : wb.block_id = block_id)
    (hsafe : sameSet (env.settings_peers block_id) st.peer_ids = false →
      ((env.settings_peers block_id).length - 1) / 3 ≠ 0) :
    (on_block_commit env block_id st log).st.seq_num = st.seq_num + 1 ∧
    (Effect.getSettings block_id ∈ (on_block_commit env block_id st log).effs ↔
      ¬ (st.seq_num + 1) % st.forced_view_change_period = 0) ∧
    ((on_block_commit env block_id st log).st.view = st.view + 1 ↔
      ((st.seq_num + 1) % st.forced_view_change_period = 0 ∨
       sameSet (env.settings_peers block_id) st.peer_ids = false)) ∧
    (on_block_commit env block_id st log).status = .ok := by
  by_cases hf : (st.seq_num + 1) % st.forced_view_change_period = 0
  · have hred : on_block_commit env block_id st log =
        on_block_commit_tail block_id
          { st with phase := .prePreparing, seq_num := st.seq_num + 1,
                    working_block := ((log.get_messages_of_type_seq .blockNew
                        (st.seq_num + 1)).head?).map
                      (fun (m : ParsedMessage) => m.get_blockD),
                    view := st.view + 1 }
          log [] := by
      unfold on_block_commit
      simp [hph, hwb, hid, PbftState.switch_phase, PbftPhase.next,
        PbftState.at_forced_view_change, hf]
    rcases on_block_commit_tail_spec block_id
        { st with phase := .prePreparing, seq_num := st.seq_num + 1,
                  working_block := ((log.get_messages_of_type_seq .blockNew
                      (st.seq_num + 1)).head?).map
                    (fun (m : ParsedMessage) => m.get_blockD),
                  view := st.view + 1 }
        log [] with ⟨t1, t2, t3, t4⟩
    rw [hred]
    refine ⟨t1, ?_, ?_, t3⟩
    · rw [t4]
      simp [hf]
    · rw [t2]
      simp [hf]
  · by_cases hsm : sameSet (env.settings_peers block_id) st.peer_ids = true
    · have hred : on_block_commit env block_id st log =
          on_block_commit_tail block_id
            { st with phase := .prePreparing, seq_num := st.seq_num + 1,
                      working_block := ((log.get_messages_of_type_seq .blockNew
                          (st.seq_num + 1)).head?).map
                        (fun (m : ParsedMessage) => m.get_blockD) }
            log [.getSettings block_id] := by
        unfold on_block_commit
        simp [hph, hwb, hid, PbftState.switch_phase, PbftPhase.next,
          PbftState.at_forced_view_change, hf, hsm]
      rcases on_block_commit_tail_spec block_id
          { st with phase := .prePreparing, seq_num := st.seq_num + 1,
                    working_block := ((log.get_messages_of_type_seq .blockNew
                        (st.seq_num + 1)).head?).map
                      (fun (m : ParsedMessage) => m.get_blockD) }
          log [.getSettings block_id] with ⟨t1, t2, t3, t4⟩
      rw [hred]
      refine ⟨t1, ?_, ?_, t3⟩
      · rw [t4]
        simp [hf]
      · rw [t2]
        simp [hf, hsm]
    · have hch : sameSet (env.settings_peers block_id) st.peer_ids = false := by
        cases h : sameSet (env.settings_peers block_id) st.peer_ids
        · rfl
        · exact absurd h hsm
      have hfz : ¬ (((env.settings_peers block_id).length - 1) / 3 == 0) = true := by
        simpa using hsafe hch
      have hred : on_block_commit env block_id st log =
          on_block_commit_tail block_id
            { st with phase := .prePreparing, seq_num := st.seq_num + 1,
                      working_block := ((log.get_messages_of_type_seq .blockNew
                          (st.seq_num + 1)).head?).map
                        (fun (m : ParsedMessage) => m.get_blockD),
                      peer_ids := env.settings_peers block_id,
                      f := ((env.settings_peers block_id).length - 1) / 3,
                      view := st.view + 1 }
            log [.getSettings block_id] := by
        unfold on_block_commit
        simp [hph, hwb, hid, PbftState.switch_phase, PbftPhase.next,
          PbftState.at_forced_view_change, hf, hch, hfz]
      rcases on_block_commit_tail_spec block_id
          { st with phase := .prePreparing, seq_num := st.seq_num + 1,
                    working_block := ((log.get_messages_of_type_seq .blockNew
                        (st.seq_num + 1)).head?).map
                      (fun (m : ParsedMessage) => m.get_blockD),
                    peer_ids := env.settings_peers block_id,
                    f := ((env.settings_peers block_id).length - 1) / 3,
                    view := st.view + 1 }
          log [.getSettings block_id] with ⟨t1, t2, t3, t4⟩
      rw [hred]
      refine ⟨t1, ?_, ?_, t3⟩
      · rw [t4]
        simp [hf]
      · rw [t2]
        simp [hch]

/-- C7 witness: an accepted BlockCommit away from the forced boundary with
unchanged on-chain membership advances seq_num, queries get_settings at the
committed block, and leaves the view unchanged. -/
theorem c7_membership_and_view_update_witness :
    (on_block_commit envA 77 stC7b log0).st.seq_num = stC7b.seq_num + 1 ∧
    Effect.getSettings 77 ∈ (on_block_commit envA 77 stC7b log0).effs ∧
    ¬ (on_block_commit envA 77 stC7b log0).st.view = stC7b.view + 1 ∧
    (on_block_commit envA 77 stC7b log0).status = .ok := by
  have h := c7_membership_and_view_update envA stC7b log0 77 wb77 (by decide)
    (by decide) (by decide) (by decide)
  refine ⟨h.1, h.2.1.mpr (by decide), fun hv => ?_, h.2.2.2⟩
  rcases h.2.2.1.mp hv with h2 | h2 <;> revert h2 <;> decide

@[simp]
theorem commitsOf_nil : commitsOf [] = [] := rfl

@[simp]
theorem commitsOf_append (a b : List Effect) :
    commitsOf (a ++ b) = commitsOf a ++ commitsOf b :=
  List.filterMap_append a b _

@[simp]
theorem commitsOf_initBlock_cons (p : Option BlockId) (es : List Effect) :
    commitsOf (.initBlock p :: es) = commitsOf es := rfl

@[simp]
theorem commitsOf_checkBlocks_cons (ids : List BlockId) (es : List Effect) :
    commitsOf (.checkBlocks ids :: es) = commitsOf es := rfl

@[simp]
theorem commitsOf_commitBlock_cons (id : BlockId) (h : Nat) (es : List Effect) :
    commitsOf (.commitBlock id h :: es) = (h, id) :: commitsOf es := rfl

@[simp]
theorem commitsOf_failBlock_cons (id : BlockId) (es : List Effect) :
    commitsOf (.failBlock id :: es) = commitsOf es := rfl

@[simp]
theorem commitsOf_broadcastMsg_cons (t : PbftMessageType) (w : PbftMessageWrapper)
    (es : List Effect) : commitsOf (.broadcastMsg t w :: es) = commitsOf es := rfl

@[simp]
theorem commitsOf_getSettings_cons (id : BlockId) (es : List Effect) :
    commitsOf (.getSettings id :: es) = commitsOf es := rfl

@[simp]
theorem commitsOf_finalizeBlock_cons (es : List Effect) :
    commitsOf (.finalizeBlock :: es) = commitsOf es := rfl

theorem commitsOf_map_failBlock (l : List PbftBlock) :
    commitsOf (l.map (fun b => Effect.failBlock b.block_id)) = [] := by
  induction l with
  | nil => rfl
  | cons b bs ih => simpa using ih

theorem commitsAt_append (h : Nat) (a b : List Effect) :
    commitsAt h (a ++ b) = commitsAt h a ++ commitsAt h b := by
  unfold commitsAt
  rw [commitsOf_append, List.filterMap_append]

theorem commitsAt_of_commitsOf_nil (h : Nat) (es : List Effect)
    (hc : commitsOf es = []) : commitsAt h es = [] := by
  unfold commitsAt
  rw [hc]
  rfl

@[simp]
theorem switch_phase_seq (st : PbftState) (p : PbftPhase) :
    (st.switch_phase p).seq_num = st.seq_num := by
  unfold PbftState.switch_phase
  split <;> rfl

theorem switch_phase_fin (st : PbftState) (p : PbftPhase)
    (h : st.phase = .finished) (hp : p ≠ .prePreparing) :
    (st.switch_phase p).phase = .finished := by
  unfold PbftState.switch_phase
  split
  · next heq =>
    rw [h] at heq
    simp only [PbftPhase.next] at heq
    exact absurd heq hp
  · exact h

@[simp]
theorem on_block_commit_tail_seq (block_id : BlockId) (st : PbftState)
    (log : PbftLog) (effs0 : List Effect) :
    (on_block_commit_tail block_id st log effs0).st.seq_num = st.seq_num := rfl

@[simp]
theorem on_block_commit_tail_phase (block_id : BlockId) (st : PbftState)
    (log : PbftLog) (effs0 : List Effect) :
    (on_block_commit_tail block_id st log effs0).st.phase = st.phase := rfl

@[simp]
theorem on_block_commit_tail_status (block_id : BlockId) (st : PbftState)
    (log : PbftLog) (effs0 : List Effect) :
    (on_block_commit_tail block_id st log effs0).status = .ok := rfl

theorem on_block_commit_tail_commits (block_id : BlockId) (st : PbftState)
    (log : PbftLog) (effs0 : List Effect) :
    commitsOf (on_block_commit_tail block_id st log effs0).effs = commitsOf effs0 := by
  unfold on_block_commit_tail
  show commitsOf (effs0 ++ _) = commitsOf effs0
  rw [commitsOf_append]
  split <;> simp

theorem commitsOf_broadcast_pbft (seq : Nat) (t : PbftMessageType)
    (b : PbftBlock) (st : PbftState) :
    commitsOf (broadcast_pbft_message seq t b st) = [] := by
  unfold broadcast_pbft_message
  split <;> simp

theorem propose_view_change_spec (st : PbftState) (log : PbftLog) (v : Nat) :
    (propose_view_change st log v).st.seq_num = st.seq_num ∧
    (propose_view_change st log v).st.phase = st.phase ∧
    (propose_view_change st log v).log = log ∧
    commitsOf (propose_view_change st log v).effs = [] ∧
    (propose_view_change st log v).status = .ok := by
  unfold propose_view_change
  split
  · exact ⟨rfl, rfl, rfl, rfl, rfl⟩
  · exact ⟨rfl, rfl, rfl, rfl, rfl⟩

theorem Preserves_of_seq_succ (st st' : PbftState)
    (hs : st'.seq_num = st.seq_num + 1) : Preserves st st' :=
  ⟨by omega, fun _ => Or.inl (by omega)⟩

theorem Preserves_refl (st : PbftState) : Preserves st st :=
  ⟨le_refl _, fun hf => Or.inr ⟨rfl, hf⟩⟩

@[simp]
theorem on_block_commit_commits (env : Env) (id : BlockId) (st : PbftState)
    (log : PbftLog) : commitsOf (on_block_commit env id st log).effs = [] := by
  unfold on_block_commit
  dsimp only
  repeat' split
  all_goals first
    | rfl
    | (rw [on_block_commit_tail_commits]; rfl)

theorem on_block_commit_preserves (env : Env) (id : BlockId) (st : PbftState)
    (log : PbftLog) : Preserves st (on_block_commit env id st log).st := by
  unfold on_block_commit
  dsimp only
  repeat' split
  all_goals first
    | exact Preserves_refl st
    | exact Preserves_of_seq_succ _ _ (by simp)

theorem obc_post (env : Env) (bid : BlockId) (stP : PbftState) (logP : PbftLog)
    (hph : stP.phase = .finished) (n : Nat) (hn : stP.seq_num = n) :
    n < (on_block_commit env bid stP logP).st.seq_num ∨
    ((on_block_commit env bid stP logP).st.seq_num = n ∧
     (on_block_commit env bid stP logP).st.phase = .finished) := by
  have h := (on_block_commit_preserves env bid stP logP).2 hph
  rw [hn] at h
  exact h

theorem catchup_spec (env : Env) (block : Block) (st : PbftState) (log : PbftLog)
    (hfin : st.phase ≠ .finished) :
    StepSpec st (catchup env block st log).st (catchup env block st log).effs := by
  unfold catchup
  dsimp only
  repeat' split
  · exact Or.inl ⟨rfl, le_refl _, fun h => absurd h hfin⟩
  · exact Or.inl ⟨rfl, le_refl _, fun h => absurd h hfin⟩
  · exact Or.inl ⟨rfl, le_refl _, fun h => absurd h hfin⟩
  · exact Or.inl ⟨rfl, le_refl _, fun h => absurd h hfin⟩
  · exact Or.inl ⟨rfl, le_refl _, fun h => absurd h hfin⟩
  · refine Or.inr ⟨?_, hfin, ?_⟩
    · simp
    · apply obc_post env
      · rfl
      · rfl
  · refine Or.inr ⟨?_, hfin, ?_⟩
    · simp
    · apply obc_post env
      · rfl
      · rfl

theorem StepSpec_of_same_seq (st st' : PbftState) (effs : List Effect)
    (hc : commitsOf effs = []) (hs : st'.seq_num = st.seq_num)
    (hf : st.phase = .finished → st'.phase = .finished) : StepSpec st st' effs :=
  Or.inl ⟨hc, by omega, fun h => Or.inr ⟨hs, hf h⟩⟩

theorem handle_pre_prepare_spec (msg : ParsedMessage) (st : PbftState)
    (log : PbftLog) :
    StepSpec st (handle_pre_prepare msg st log).st (handle_pre_prepare msg st log).effs := by
  unfold handle_pre_prepare
  dsimp only
  split
  · exact StepSpec_of_same_seq _ _ _ rfl rfl (fun h => h)
  · split
    · exact StepSpec_of_same_seq _ _ _ rfl rfl (fun h => h)
    · split
      · exact StepSpec_of_same_seq _ _ _ rfl rfl (fun h => h)
      · split
        · refine StepSpec_of_same_seq _ _ _ ?_ ?_ ?_
          · rw [commitsOf_append, commitsOf_map_failBlock,
              (propose_view_change_spec _ _ _).2.2.2.1]
            rfl
          · exact (propose_view_change_spec _ _ _).1
          · intro h
            rw [(propose_view_change_spec _ _ _).2.1]
            exact h
        · split
          · refine StepSpec_of_same_seq _ _ _ rfl ?_ ?_
            · simp
            · intro h
              exact switch_phase_fin st .checking h (by decide)
          · exact StepSpec_of_same_seq _ _ _ rfl rfl (fun h => h)

theorem handle_prepare_spec (msg : ParsedMessage) (st : PbftState)
    (log : PbftLog) :
    StepSpec st (handle_prepare msg st log).st (handle_prepare msg st log).effs := by
  unfold handle_prepare
  dsimp only
  split
  · exact StepSpec_of_same_seq _ _ _ rfl rfl (fun h => h)
  · split
    · split
      · split
        · refine StepSpec_of_same_seq _ _ _ ?_ ?_ ?_
          · rw [commitsOf_broadcast_pbft]
          · simp
          · intro h
            exact switch_phase_fin st .committing h (by decide)
        · exact StepSpec_of_same_seq _ _ _ rfl rfl (fun h => h)
      · exact StepSpec_of_same_seq _ _ _ rfl rfl (fun h => h)
    · exact StepSpec_of_same_seq _ _ _ rfl rfl (fun h => h)

theorem handle_commit_spec (msg : ParsedMessage) (st : PbftState)
    (log : PbftLog) :
    StepSpec st (handle_commit msg st log).st (handle_commit msg st log).effs := by
  unfold handle_commit
  dsimp only
  split
  · exact StepSpec_of_same_seq _ _ _ rfl rfl (fun h => h)
  · split
    · next hcond =>
      have hph : st.phase = .committing := by
        have hc := hcond
        simp only [Bool.and_eq_true, beq_iff_eq] at hc
        exact hc.2
      split
      · split
        · refine Or.inr ⟨?_, ?_, ?_⟩
          · simp
          · rw [hph]
            decide
          · right
            constructor
            · simp
            · show (st.switch_phase .finished).phase = .finished
              unfold PbftState.switch_phase
              rw [hph]
              simp [PbftPhase.next]
        · exact StepSpec_of_same_seq _ _ _ rfl rfl (fun h => h)
      · exact StepSpec_of_same_seq _ _ _ rfl rfl (fun h => h)
    · exact StepSpec_of_same_seq _ _ _ rfl rfl (fun h => h)

theorem handle_view_change_spec (msg : ParsedMessage) (st : PbftState)
    (log : PbftLog) :
    StepSpec st (handle_view_change msg st log).st (handle_view_change msg st log).effs := by
  unfold handle_view_change
  dsimp only
  repeat' split
  all_goals
    refine StepSpec_of_same_seq _ _ _ ?_ ?_ ?_
  all_goals first
    | rfl
    | (rw [commitsOf_append, (propose_view_change_spec _ _ _).2.2.2.1]; simp)
    | exact (propose_view_change_spec _ _ _).1
    | (intro h
       rw [(propose_view_change_spec _ _ _).2.1]
       exact h)
    | exact fun h => h
    | (simp [(propose_view_change_spec _ _ _).2.2.2.1])

theorem StepSpec_prepend (st st' : PbftState) (pre effs : List Effect)
    (hpre : commitsOf pre = []) (h : StepSpec st st' effs) :
    StepSpec st st' (pre ++ effs) := by
  rcases h with ⟨h1, h2, h3⟩ | ⟨h1, h2, h3⟩
  · exact Or.inl ⟨by simp [commitsOf_append, hpre, h1], h2, h3⟩
  · exact Or.inr ⟨by rw [commitsOf_append, hpre]; simpa using h1, h2, h3⟩

theorem on_block_valid_spec (id : BlockId) (st : PbftState) (log : PbftLog) :
    StepSpec st (on_block_valid id st log).st (on_block_valid id st log).effs := by
  unfold on_block_valid
  dsimp only
  repeat' split
  · refine StepSpec_of_same_seq _ _ _ ?_ ?_ ?_
    · rw [commitsOf_broadcast_pbft]
    · simp
    · intro h
      exact switch_phase_fin st .preparing h (by decide)
  · exact StepSpec_of_same_seq _ _ _ rfl rfl (fun h => h)
  · exact StepSpec_of_same_seq _ _ _ rfl rfl (fun h => h)

theorem try_publish_spec (env : Env) (st : PbftState) (log : PbftLog) :
    StepSpec st (try_publish env st log).st (try_publish env st log).effs := by
  unfold try_publish try_publish_finalize
  repeat' split
  all_goals exact StepSpec_of_same_seq _ _ _ rfl rfl (fun h => h)

theorem verify_consensus_seal_commits (env : Env) (block : Block) (st : PbftState) :
    commitsOf (verify_consensus_seal env block st).2 = [] := by
  unfold verify_consensus_seal seal_voters_check
  dsimp only
  repeat' split
  all_goals rfl

theorem on_block_new_spec (env : Env) (block : Block) (st : PbftState)
    (log : PbftLog) :
    StepSpec st (on_block_new env block st log).st (on_block_new env block st log).effs := by
  have hveffs : commitsOf (verify_consensus_seal env block st).2 = [] :=
    verify_consensus_seal_commits env block st
  unfold on_block_new
  dsimp only
  split
  · exact StepSpec_of_same_seq _ _ _ rfl rfl (fun h => h)
  · split
    · next e veffs heq =>
      rw [heq] at hveffs
      refine StepSpec_of_same_seq _ _ _ ?_ ?_ ?_
      · rw [commitsOf_append, commitsOf_append]
        simp [hveffs, (propose_view_change_spec _ _ _).2.2.2.1]
      · exact (propose_view_change_spec _ _ _).1
      · intro h
        rw [(propose_view_change_spec _ _ _).2.1]
        exact h
    · next u veffs heq =>
      rw [heq] at hveffs
      split
      · next hcond =>
        have hfin : st.phase ≠ .finished := by
          have hc := hcond
          simp only [Bool.and_eq_true, bne_iff_ne] at hc
          exact hc.2
        exact StepSpec_prepend _ _ _ _ hveffs (catchup_spec env block st _ hfin)
      · split
        · split
          · refine StepSpec_of_same_seq _ _ _ ?_ rfl (fun h => h)
            rw [commitsOf_append]
            simp [hveffs, commitsOf_broadcast_pbft]
          · exact StepSpec_of_same_seq _ _ _ hveffs rfl (fun h => h)
        · exact StepSpec_of_same_seq _ _ _ hveffs rfl (fun h => h)

theorem on_peer_message_spec (msg : ParsedMessage) (st : PbftState) (log : PbftLog)
    (hnv : msg.info.msg_type ≠ .newView) :
    StepSpec st (on_peer_message msg st log).st (on_peer_message msg st log).effs := by
  unfold on_peer_message
  dsimp only
  split
  · exact StepSpec_of_same_seq _ _ _ rfl rfl (fun h => h)
  · cases htype : msg.info.msg_type with
    | blockNew => exact StepSpec_of_same_seq _ _ _ rfl rfl (fun h => h)
    | prePrepare => exact handle_pre_prepare_spec msg st log
    | prepare => exact handle_prepare_spec msg st log
    | commit => exact handle_commit_spec msg st log
    | viewChange => exact handle_view_change_spec msg st log
    | newView => exact absurd htype hnv
    | unset => exact StepSpec_of_same_seq _ _ _ rfl rfl (fun h => h)

theorem node_step_spec (env : Env) (e : Event) (st : PbftState) (log : PbftLog)
    (hnv : e.deliversNewView = false) :
    StepSpec st (node_step env e st log).st (node_step env e st log).effs := by
  cases e with
  | blockNew b => exact on_block_new_spec env b st log
  | peerMessage m =>
    exact on_peer_message_spec m st log
      (by simpa [Event.deliversNewView] using hnv)
  | blockValid id => exact on_block_valid_spec id st log
  | blockCommit id =>
    exact Or.inl ⟨on_block_commit_commits env id st log,
      (on_block_commit_preserves env id st log).1,
      (on_block_commit_preserves env id st log).2⟩
  | tryPublish => exact try_publish_spec env st log

theorem commitsAt_single (h h0 : Nat) (b : BlockId) (E : List Effect)
    (hE : commitsOf E = [(h0, b)]) :
    commitsAt h E = if h0 = h then [b] else [] := by
  unfold commitsAt
  rw [hE]
  by_cases hh : h0 = h
  · simp [hh]
  · simp [hh]

theorem execInv_step (st st' : PbftState) (effs E : List Effect)
    (hinv : ExecInv st effs) (hstep : StepSpec st st' E) :
    ExecInv st' (effs ++ E) := by
  unfold ExecInv regionOk at hinv ⊢
  obtain ⟨hded, hreg⟩ := hinv
  unfold StepSpec at hstep
  rcases hstep with ⟨hc, hle, hfin⟩ | ⟨hmap, hnf, hpost⟩
  · have hat : ∀ h, commitsAt h E = [] := fun h => commitsAt_of_commitsOf_nil h E hc
    constructor
    · intro h
      rw [commitsAt_append, hat h, List.append_nil]
      exact hded h
    · intro h hne
      rw [commitsAt_append, hat h, List.append_nil] at hne
      rcases hreg h hne with hlt | ⟨heq, hf⟩
      · exact Or.inl (by omega)
      · rcases hfin hf with h2 | ⟨h2, h3⟩
        · exact Or.inl (by omega)
        · exact Or.inr ⟨by omega, h3⟩
  · rcases hE : commitsOf E with _ | ⟨⟨h0, b⟩, tl⟩
    · rw [hE] at hmap
      simp at hmap
    · rw [hE] at hmap
      have h1 : h0 = st.seq_num ∧ List.map Prod.fst tl = [] := by
        simpa using hmap
      have htl : tl = [] := List.map_eq_nil_iff.mp h1.2
      subst htl
      have hE' : commitsOf E = [(st.seq_num, b)] := by
        rw [hE, h1.1]
      constructor
      · intro h
        rw [commitsAt_append, commitsAt_single h st.seq_num b E hE']
        by_cases hh : st.seq_num = h
        · subst hh
          rw [if_pos rfl]
          have hempty : commitsAt st.seq_num effs = [] := by
            by_contra hne
            rcases hreg _ hne with hlt | ⟨heq, hf⟩
            · omega
            · exact hnf hf
          rw [hempty]
          simp
        · rw [if_neg hh, List.append_nil]
          exact hded h
      · intro h hne
        rw [commitsAt_append, commitsAt_single h st.seq_num b E hE'] at hne
        by_cases hh : st.seq_num = h
        · subst hh
          rcases hpost with h2 | ⟨h2, h3⟩
          · exact Or.inl (by omega)
          · exact Or.inr ⟨by omega, h3⟩
        · rw [if_neg hh, List.append_nil] at hne
          rcases hreg h hne with hlt | ⟨heq, hf⟩
          · refine Or.inl ?_
            rcases hpost with h2 | ⟨h2, _⟩ <;> omega
          · exact absurd hf hnf

theorem exec_execInv (env : Env) (events : List Event) :
    ∀ st log effs, (∀ e ∈ events, e.deliversNewView = false) → ExecInv st effs →
    ExecInv (exec env events st log effs).st (exec env events st log effs).effs := by
  induction events with
  | nil =>
    intro st log effs _ hinv
    exact hinv
  | cons e es ih =>
    intro st log effs hnv hinv
    have hstep := node_step_spec env e st log (hnv e (List.mem_cons_self e es))
    have hinv2 := execInv_step st (node_step env e st log).st effs
      (node_step env e st log).effs hinv hstep
    by_cases hp : (node_step env e st log).status = .panicked
    · simp only [exec]
      rw [if_pos hp]
      exact hinv2
    · simp only [exec]
      rw [if_neg hp]
      exact ih _ _ _ (fun e' he' => hnv e' (List.mem_cons_of_mem e he')) hinv2

/-- C1 (amended): along every execution of a node consisting of on_block_new,
on_peer_message with messages other than NewView, on_block_valid,
on_block_commit and try_publish invocations, the node calls commit_block for
at most one distinct block at any height, i.e. at most one block reaches
Finished at each height.  (The counterexample shows this fails once NewView
messages are handled: reset_to_start keeps seq_num, reopening the height.) -/
theorem c1_no_newview_commit_uniqueness (env : Env) (events : List Event)
    (st : PbftState) (log : PbftLog) (h : Nat)
    (hnv : ∀ e ∈ events, e.deliversNewView = false) :
    (commitsAt h (run env events st log).effs).dedup.length ≤ 1 := by
  have hbase : ExecInv st [] := by
    unfold ExecInv
    constructor
    · intro h0
      simp [commitsAt, commitsOf]
    · intro h0 hne
      exact absurd rfl hne
  have hmain := exec_execInv env events st log [] hnv hbase
  unfold ExecInv at hmain
  unfold run
  exact hmain.1 h

/-- C1 witness: a NewView-free execution performing one full three-phase
commit of block 101 at height 1 trivially satisfies per-height commit
uniqueness. -/
theorem c1_no_newview_commit_uniqueness_witness :
    (commitsAt 1 (run envA eventsNoNV st0 log0).effs).dedup.length ≤ 1 :=
  c1_no_newview_commit_uniqueness envA eventsNoNV st0 log0 1 (by decide)

end Pbft
